import Mathlib

/-! Admission validation of SR-IOV network node policies.

A shallow embedding of `pkg/webhook/validate.go` and theorems about it.

Go strings are embedded as Lean `String`s; helper functions from the Go standard
library (`strings.Contains`, `strings.Split`, `strconv.Atoi`, `strings.EqualFold`,
`strings.ToLower`) are embedded on the character list of a string.  Go `int` is
embedded as `Int` (only comparisons are performed on it).  A Go `(bool, error)`
result is embedded as `Bool × Option ValidationError`, where every `fmt.Errorf`
call site of the file is one constructor of `ValidationError` carrying the values
interpolated into its message.
-/

set_option autoImplicit false

namespace Webhook

/-! ## Standard-library helpers -/

/-- Go `strings.Contains(s, sep)` for a separator of one character. -/
def containsChar (c : Char) (s : List Char) : Bool :=
  s.contains c

/-- Go `strings.Split(s, sep)` for a separator of one character: the pieces between
the occurrences of `c`, so `n` occurrences give `n + 1` pieces. -/
def splitChar (c : Char) : List Char → List (List Char)
  | [] => [[]]
  | x :: xs =>
    if x = c then [] :: splitChar c xs
    else
      match splitChar c xs with
      | [] => [[x]]
      | p :: ps => (x :: p) :: ps

/-- Value of a decimal digit, `none` for any other character. -/
def digitVal (c : Char) : Option Nat :=
  if '0' ≤ c ∧ c ≤ '9' then some (c.toNat - '0'.toNat) else none

/-- Value of a string of decimal digits read left to right from accumulator `acc`;
`none` when a character is not a digit. -/
def digitsVal : List Char → Nat → Option Nat
  | [], acc => some acc
  | c :: cs, acc =>
    match digitVal c with
    | none => none
    | some d => digitsVal cs (acc * 10 + d)

/-- Unsigned part of `strconv.Atoi`: at least one character, all decimal digits. -/
def parseDigits (s : List Char) : Option Nat :=
  match s with
  | [] => none
  | _ :: _ => digitsVal s 0

/-- Go `strconv.Atoi` on a 64-bit platform: an optional sign, then one or more decimal
digits; the value has to fit a signed 64-bit integer.  `none` stands for a non-nil
error. -/
def Atoi (s : List Char) : Option Int :=
  match s with
  | [] => none
  | c :: rest =>
    if c = '-' then
      match parseDigits rest with
      | some n => if n ≤ 2 ^ 63 then some (-(n : Int)) else none
      | none => none
    else if c = '+' then
      match parseDigits rest with
      | some n => if n < 2 ^ 63 then some (n : Int) else none
      | none => none
    else
      match parseDigits (c :: rest) with
      | some n => if n < 2 ^ 63 then some (n : Int) else none
      | none => none

/-- ASCII lower-casing of one character. -/
def lowerChar (c : Char) : Char :=
  if 'A' ≤ c ∧ c ≤ 'Z' then Char.ofNat (c.toNat + 32) else c

/-- Go `strings.ToLower`: every character of the string mapped by `unicode.ToLower`,
the lower-case mapping of the Unicode case tables, passed as `lower`. -/
def ToLower (lower : Char → Char) (s : List Char) : List Char :=
  s.map lower

/-- Go `strings.EqualFold(s, t)` for a `t` made of letters whose case-folding orbit has
only the two ASCII forms (such as `I` and `B`): same length and equal characters up to
ASCII case. -/
def EqualFold : List Char → List Char → Bool
  | [], [] => true
  | a :: as, b :: bs => (lowerChar a == lowerChar b) && EqualFold as bs
  | _, _ => false

/-- Go `strings.Contains(s, sub)`: `sub` occurs as a contiguous block of `s`. -/
def containsSubstr (sub : List Char) : List Char → Bool
  | [] => sub.isEmpty
  | x :: xs => sub.isPrefixOf (x :: xs) || containsSubstr sub xs

/-- The character class `[a-zA-Z0-9_]`. -/
def isWordChar (c : Char) : Bool :=
  ('a' ≤ c ∧ c ≤ 'z') || ('A' ≤ c ∧ c ≤ 'Z') || ('0' ≤ c ∧ c ≤ '9') || c = '_'

/-- `regexp.MustCompile("^[a-zA-Z0-9_]+$").MatchString(s)`: the whole text is one or
more characters of the class. -/
def validString (s : List Char) : Bool :=
  !s.isEmpty && s.all isWordChar

/-! ## Data model (`api/v1` types, the fields read by the webhook) -/

/-- `sriovnetworkv1.SriovNetworkNicSelector`. -/
structure SriovNetworkNicSelector where
  Vendor : String
  DeviceID : String
  RootDevices : List String
  PfNames : List String
  NetFilter : String
  deriving DecidableEq, Repr

/-- `sriovnetworkv1.SriovNetworkNodePolicySpec`.  `NodeSelector` is the label map as a
list of key/value pairs. -/
structure SriovNetworkNodePolicySpec where
  ResourceName : String
  NodeSelector : List (String × String)
  NumVfs : Int
  NicSelector : SriovNetworkNicSelector
  DeviceType : String
  IsRdma : Bool
  LinkType : String
  EswitchMode : String
  VdpaType : String
  deriving DecidableEq, Repr

/-- `sriovnetworkv1.SriovNetworkNodePolicy` with the object name and namespace. -/
structure SriovNetworkNodePolicy where
  Name : String
  Namespace : String
  Spec : SriovNetworkNodePolicySpec
  deriving DecidableEq, Repr

/-- `sriovnetworkv1.InterfaceExt`. -/
structure InterfaceExt where
  Name : String
  Vendor : String
  DeviceID : String
  PciAddress : String
  TotalVfs : Int
  NetFilter : String
  deriving DecidableEq, Repr

/-- `sriovnetworkv1.SriovNetworkNodeState`: object name and `Status.Interfaces`. -/
structure SriovNetworkNodeState where
  Name : String
  Interfaces : List InterfaceExt
  deriving DecidableEq, Repr

/-- `corev1.Node`: object name, labels and `Spec.ProviderID`. -/
structure Node where
  Name : String
  Labels : List (String × String)
  ProviderID : String
  deriving DecidableEq, Repr

/-- `v1.Operation` of the admission request. -/
inductive Operation where
  | Create
  | Update
  | Delete
  | Connect
  deriving DecidableEq, Repr

/-- One constructor per `fmt.Errorf` call site of `validate.go` (and one for an error
returned by a cluster query), with the values interpolated into the message. -/
inductive ValidationError where
  | defaultConfigDelete
  | onlyDefaultConfig
  | defaultPolicyDelete
  | resourceName (name : String)
  | emptySelector (cr : String)
  | vendorNotSupported (vendor : String)
  | modelNotSupported (vendor device : String)
  | deviceNotSupported (device : String)
  | pfSeparator (pf : String)
  | pfRangeChar (pf : String)
  | pfStartRange (pf : String)
  | pfEndRange (pf : String)
  | pfEndSmaller (pf : String)
  | pfEndExceeds (pf : String)
  | vfioRdma
  | ibRdma
  | vdpaDeviceType (deviceType : String)
  | vdpaSwitchdev
  | retrieval (msg : String)
  | noNode (cr : String)
  | noNic (cr : String)
  | numVfsZero (numVfs : Int) (cr : String)
  | numVfsExceed (numVfs : Int) (cr : String) (max : Int)
  | vdpaVendor (vendor cr : String)
  | invalidPfName (pf : String)
  | overlap (pf previous : String)
  deriving DecidableEq, Repr

/-- A Go `(bool, error)` result. -/
abbrev Verdict := Bool × Option ValidationError

/-! ## Constants and configuration -/

/-- `IntelID` of `validate.go`. -/
def IntelID : String := "8086"

/-- `MellanoxID` of `validate.go`. -/
def MellanoxID : String := "15b3"

/-- `MlxMaxVFs` of `validate.go`. -/
def MlxMaxVFs : Int := 128

/-- Modelled from the spec: `constants.DeviceTypeVfioPci` (package `pkg/consts`), the
device type the spec writes `vfio-pci`. -/
def DeviceTypeVfioPci : String := "vfio-pci"

/-- Modelled from the spec: `constants.DeviceTypeNetDevice` (package `pkg/consts`), the
device type the spec writes `netdevice`. -/
def DeviceTypeNetDevice : String := "netdevice"

/-- Modelled from the spec: `constants.VdpaTypeVirtio` (package `pkg/consts`), the vdpa
type the spec writes `virtio`. -/
def VdpaTypeVirtio : String := "virtio"

/-- Modelled from the spec: `constants.LinkTypeIB` (package `pkg/consts`), the link type
the spec writes `IB`. -/
def LinkTypeIB : String := "IB"

/-- Modelled from the spec: `sriovnetworkv1.ESwithModeSwitchDev` (package `api/v1`), the
eswitch mode the spec writes `switchdev`. -/
def ESwithModeSwitchDev : String := "switchdev"

/-- What `validate.go` reads from outside the file: the two environment variables, the
names of the default objects (package `pkg/consts`), the support registries of package
`api/v1`, the keys of `utils.PlatformMap`, and `unicode.ToLower`, the lower-case mapping
of the Unicode case tables that `strings.ToLower` applies to every character. -/
structure Env where
  NAMESPACE : String
  DEV_MODE : String
  DefaultPolicyName : String
  DefaultConfigName : String
  IsSupportedVendor : String → Bool
  IsSupportedModel : String → String → Bool
  IsSupportedDevice : String → Bool
  IsVfSupportedModel : String → String → Bool
  PlatformMap : List String
  unicodeToLower : Char → Char

/-! ## Static Rule Checker -/

/-- The body of the loop over `PfNames` in `staticValidateSriovNetworkNodePolicy`
(lines 123-146) for one token: `none` when the loop goes on to the next token,
`some e` when the function returns `false, e`. -/
def checkPfName (numVfs : Int) (pf : String) : Option ValidationError :=
  if containsChar '#' pf.data then
    match splitChar '#' pf.data with
    | [_, f1] =>
      match splitChar '-' f1 with
      | [r0, r1] =>
        match Atoi r0 with
        | none => some (.pfStartRange pf)
        | some rngSt =>
          match Atoi r1 with
          | none => some (.pfEndRange pf)
          | some rngEnd =>
            if rngEnd < rngSt then some (.pfEndSmaller pf)
            else if ¬ (rngEnd < numVfs) then some (.pfEndExceeds pf)
            else none
      | _ => some (.pfRangeChar pf)
    | _ => some (.pfSeparator pf)
  else none

/-- The loop over `PfNames` (lines 121-148): the error of the first token that fails. -/
def checkPfNames (numVfs : Int) : List String → Option ValidationError
  | [] => none
  | pf :: rest =>
    match checkPfName numVfs pf with
    | some e => some e
    | none => checkPfNames numVfs rest

/-- The vendor/device support check of lines 104-119 (run when `devMode` is false):
`none` when it passes. -/
def checkSupported (env : Env) (sel : SriovNetworkNicSelector) : Option ValidationError :=
  if sel.Vendor ≠ "" then
    if ¬ env.IsSupportedVendor sel.Vendor then some (.vendorNotSupported sel.Vendor)
    else if sel.DeviceID ≠ "" then
      if ¬ env.IsSupportedModel sel.Vendor sel.DeviceID then
        some (.modelNotSupported sel.Vendor sel.DeviceID)
      else none
    else none
  else if sel.DeviceID ≠ "" then
    if ¬ env.IsSupportedDevice sel.DeviceID then some (.deviceNotSupported sel.DeviceID)
    else none
  else none

/-- `staticValidateSriovNetworkNodePolicy` (lines 88-169). -/
def staticValidateSriovNetworkNodePolicy (env : Env) (cr : SriovNetworkNodePolicy) : Verdict :=
  if ¬ validString cr.Spec.ResourceName.data then
    (false, some (.resourceName cr.Spec.ResourceName))
  else if cr.Spec.NicSelector.Vendor = "" ∧ cr.Spec.NicSelector.DeviceID = "" ∧
      cr.Spec.NicSelector.PfNames.length = 0 ∧ cr.Spec.NicSelector.RootDevices.length = 0 ∧
      cr.Spec.NicSelector.NetFilter = "" then
    (false, some (.emptySelector cr.Name))
  else
    let devMode : Bool := env.DEV_MODE = "TRUE"
    match (if ¬ devMode then checkSupported env cr.Spec.NicSelector else none) with
    | some e => (false, some e)
    | none =>
      match checkPfNames cr.Spec.NumVfs cr.Spec.NicSelector.PfNames with
      | some e => (false, some e)
      | none =>
        if cr.Spec.DeviceType = DeviceTypeVfioPci ∧ cr.Spec.IsRdma then
          (false, some .vfioRdma)
        else if EqualFold cr.Spec.LinkType.data LinkTypeIB.data ∧ ¬ cr.Spec.IsRdma then
          (false, some .ibRdma)
        else if cr.Spec.DeviceType ≠ DeviceTypeNetDevice ∧ cr.Spec.VdpaType = VdpaTypeVirtio then
          (false, some (.vdpaDeviceType cr.Spec.DeviceType))
        else if cr.Spec.VdpaType = VdpaTypeVirtio ∧ cr.Spec.EswitchMode ≠ ESwithModeSwitchDev then
          (false, some .vdpaSwitchdev)
        else (true, none)

/-! ## RangeSpec Parser -/

/-- The four results of `sriovnetworkv1.ParsePFName`; `err` is true for a non-nil
error. -/
structure PFName where
  ifName : String
  rngSt : Int
  rngEnd : Int
  err : Bool
  deriving DecidableEq, Repr

/-- Modelled from the spec: the two bounds `ParsePFName` returns for a token with no
`#` ("no range constraint"), and with an error.  The spec fixes no integers for them;
the model takes an index below every VF index. -/
def noRangeIndex : Int := -1

/-- Modelled from the spec: `sriovnetworkv1.ParsePFName` (package `api/v1`, called at
lines 255 and 262 with the token alone).  With no `#` it returns the bare name with no
range constraint.  With `#` it splits into name and range; the range must split into
exactly two dash-separated decimal integers, both non-negative, end at least start; any
violation is an error.  (The bound by `NumVfs` belongs to the policy, which the
function does not receive; the Static Rule Checker applies it.) -/
def ParsePFName (name : String) : PFName :=
  if containsChar '#' name.data then
    match splitChar '#' name.data with
    | [ifName, rng] =>
      match splitChar '-' rng with
      | [r0, r1] =>
        match Atoi r0, Atoi r1 with
        | some rngSt, some rngEnd =>
          if 0 ≤ rngSt ∧ rngSt ≤ rngEnd then ⟨String.mk ifName, rngSt, rngEnd, false⟩
          else ⟨String.mk ifName, noRangeIndex, noRangeIndex, true⟩
        | _, _ => ⟨String.mk ifName, noRangeIndex, noRangeIndex, true⟩
      | _ => ⟨String.mk ifName, noRangeIndex, noRangeIndex, true⟩
    | _ => ⟨String.mk ((splitChar '#' name.data).headD []), noRangeIndex, noRangeIndex, true⟩
  else ⟨name, noRangeIndex, noRangeIndex, false⟩

/-! ## Conflict Evaluator -/

/-- The test of line 264: the two ranges are disjoint. -/
def disjointRanges (cur pre : PFName) : Bool :=
  cur.rngEnd < pre.rngSt ∨ cur.rngSt > pre.rngEnd

/-- The inner loop of `validatePolicyForNodePolicy` (lines 259-270) for the candidate
token `curPf` parsed as `cur`: `some v` when the function returns `v` inside the loop,
`none` when the loop ends. -/
def conflictInner (parsePF : String → PFName) (curPf : String) (cur : PFName)
    (previousName : String) : List String → Option Verdict
  | [] => none
  | prePf :: rest =>
    if cur.ifName = (parsePF prePf).ifName then
      if disjointRanges cur (parsePF prePf) then some (true, none)
      else some (false, some (.overlap curPf previousName))
    else conflictInner parsePF curPf cur previousName rest

/-- The outer loop of `validatePolicyForNodePolicy` (lines 254-272). -/
def conflictOuter (parsePF : String → PFName) (previousName : String)
    (prePfs : List String) : List String → Verdict
  | [] => (true, none)
  | curPf :: rest =>
    if (parsePF curPf).err then (false, some (.invalidPfName curPf))
    else
      match conflictInner parsePF curPf (parsePF curPf) previousName prePfs with
      | some v => v
      | none => conflictOuter parsePF previousName prePfs rest

/-- `validatePolicyForNodePolicy` (lines 243-273); `parsePF` is the function called as
`sriovnetworkv1.ParsePFName`. -/
def validatePolicyForNodePolicy (parsePF : String → PFName)
    (current previous : SriovNetworkNodePolicy) : Verdict :=
  if current.Name = previous.Name then (true, none)
  else conflictOuter parsePF previous.Name previous.Spec.NicSelector.PfNames
    current.Spec.NicSelector.PfNames

/-! ## Selector Matcher -/

/-- Modelled from the spec: `sriovnetworkv1.StringInArray` (package `api/v1`): the
value is a member of the array. -/
def StringInArray (val : String) (array : List String) : Bool :=
  array.contains val

/-- The name appended to `pfNames` for one token at lines 288-293: `fields[0]` of the
split at `#` when the token has one, the token otherwise. -/
def pfBaseName (p : String) : String :=
  if containsChar '#' p.data then String.mk ((splitChar '#' p.data).headD []) else p

/-- `validateNicModel` (lines 275-315). -/
def validateNicModel (env : Env) (selector : SriovNetworkNicSelector) (iface : InterfaceExt)
    (node : Node) : Bool :=
  if selector.Vendor ≠ "" ∧ selector.Vendor ≠ iface.Vendor then false
  else if selector.DeviceID ≠ "" ∧ selector.DeviceID ≠ iface.DeviceID then false
  else if selector.RootDevices.length > 0 ∧
      ¬ StringInArray iface.PciAddress selector.RootDevices then false
  else if selector.PfNames.length > 0 ∧
      ¬ StringInArray iface.Name (selector.PfNames.map pfBaseName) then false
  else if env.IsSupportedModel iface.Vendor iface.DeviceID then true
  else
    env.PlatformMap.any fun key =>
      containsSubstr (ToLower env.unicodeToLower key.data)
        (ToLower env.unicodeToLower node.ProviderID.data) &&
      decide (selector.NetFilter ≠ "") && decide (selector.NetFilter = iface.NetFilter) &&
      env.IsVfSupportedModel iface.Vendor iface.DeviceID

/-! ## Admission Orchestrator -/

/-- The two package-level variables of `validate.go`. -/
structure Globals where
  nodesSelected : Bool
  interfaceSelected : Bool
  deriving DecidableEq, Repr

/-- `validatePolicyForNodeState` (lines 220-241), as the loop over the interfaces of the
state: the result and the value of the global `interfaceSelected` when it returns. -/
def validatePolicyForNodeStateLoop (env : Env) (policy : SriovNetworkNodePolicy) (node : Node) :
    List InterfaceExt → Bool → Verdict × Bool
  | [], sel => ((true, none), sel)
  | iface :: rest, sel =>
    if validateNicModel env policy.Spec.NicSelector iface node then
      if policy.Name ≠ env.DefaultPolicyName ∧ policy.Spec.NumVfs = 0 then
        ((false, some (.numVfsZero policy.Spec.NumVfs policy.Name)), true)
      else if policy.Spec.NumVfs > iface.TotalVfs ∧ iface.Vendor = IntelID then
        ((false, some (.numVfsExceed policy.Spec.NumVfs policy.Name iface.TotalVfs)), true)
      else if policy.Spec.NumVfs > MlxMaxVFs ∧ iface.Vendor = MellanoxID then
        ((false, some (.numVfsExceed policy.Spec.NumVfs policy.Name MlxMaxVFs)), true)
      else if policy.Spec.VdpaType = VdpaTypeVirtio ∧ iface.Vendor ≠ MellanoxID then
        ((false, some (.vdpaVendor iface.Vendor policy.Name)), true)
      else validatePolicyForNodeStateLoop env policy node rest true
    else validatePolicyForNodeStateLoop env policy node rest sel

/-- `validatePolicyForNodeState` (lines 220-241) with the global `interfaceSelected`
passed in and out. -/
def validatePolicyForNodeState (env : Env) (policy : SriovNetworkNodePolicy)
    (state : SriovNetworkNodeState) (node : Node) (interfaceSelected : Bool) : Verdict × Bool :=
  validatePolicyForNodeStateLoop env policy node state.Interfaces interfaceSelected

/-- Modelled from the spec: `SriovNetworkNodePolicy.Selected` (package `api/v1`): the
labels of the machine satisfy the policy's `NodeSelector`, a logical AND across its
keys. -/
def Selected (p : SriovNetworkNodePolicy) (node : Node) : Bool :=
  p.Spec.NodeSelector.all fun kv => node.Labels.lookup kv.1 == some kv.2

/-- The results of the three list queries of `dynamicValidateSriovNetworkNodePolicy`
(lines 175-188); `error msg` is a non-nil error of the client. -/
structure Cluster where
  nodeList : Except String (List Node)
  nsList : Except String (List SriovNetworkNodeState)
  npList : Except String (List SriovNetworkNodePolicy)

/-- The loop over the node states (lines 192-198) for one selected node: `some v` when
the function returns `v`, and the value of `interfaceSelected`. -/
def nodeStatesLoop (env : Env) (cr : SriovNetworkNodePolicy) (node : Node) :
    List SriovNetworkNodeState → Bool → Option Verdict × Bool
  | [], sel => (none, sel)
  | ns :: rest, sel =>
    if ns.Name = node.Name then
      if (validatePolicyForNodeState env cr ns node sel).1.2 ≠ none ∨
          ¬ (validatePolicyForNodeState env cr ns node sel).1.1 then
        (some (false, (validatePolicyForNodeState env cr ns node sel).1.2),
          (validatePolicyForNodeState env cr ns node sel).2)
      else nodeStatesLoop env cr node rest (validatePolicyForNodeState env cr ns node sel).2
    else nodeStatesLoop env cr node rest sel

/-- The loop over the policies of the API (lines 200-206) for one selected node. -/
def nodePoliciesLoop (parsePF : String → PFName) (cr : SriovNetworkNodePolicy) (node : Node) :
    List SriovNetworkNodePolicy → Option Verdict
  | [] => none
  | np :: rest =>
    if np.Name ≠ cr.Name ∧ Selected np node then
      if (validatePolicyForNodePolicy parsePF cr np).2 ≠ none ∨
          ¬ (validatePolicyForNodePolicy parsePF cr np).1 then
        some (false, (validatePolicyForNodePolicy parsePF cr np).2)
      else nodePoliciesLoop parsePF cr node rest
    else nodePoliciesLoop parsePF cr node rest

/-- The loop over the nodes (lines 189-208). -/
def nodesLoop (env : Env) (parsePF : String → PFName) (cr : SriovNetworkNodePolicy)
    (nsList : List SriovNetworkNodeState) (npList : List SriovNetworkNodePolicy) :
    List Node → Globals → Option Verdict × Globals
  | [], g => (none, g)
  | node :: rest, g =>
    if Selected cr node then
      match nodeStatesLoop env cr node nsList g.interfaceSelected with
      | (some v, sel) => (some v, ⟨true, sel⟩)
      | (none, sel) =>
        match nodePoliciesLoop parsePF cr node npList with
        | some v => (some v, ⟨true, sel⟩)
        | none => nodesLoop env parsePF cr nsList npList rest ⟨true, sel⟩
    else nodesLoop env parsePF cr nsList npList rest g

/-- `dynamicValidateSriovNetworkNodePolicy` (lines 171-218): the result and the globals
when it returns (they are reset on entry, so the globals before the call play no
role). -/
def dynamicValidateSriovNetworkNodePolicy (env : Env) (parsePF : String → PFName)
    (cluster : Cluster) (cr : SriovNetworkNodePolicy) : Verdict × Globals :=
  match cluster.nodeList with
  | .error e => ((false, some (.retrieval e)), ⟨false, false⟩)
  | .ok nodeList =>
    match cluster.nsList with
    | .error e => ((false, some (.retrieval e)), ⟨false, false⟩)
    | .ok nsList =>
      match cluster.npList with
      | .error e => ((false, some (.retrieval e)), ⟨false, false⟩)
      | .ok npList =>
        match nodesLoop env parsePF cr nsList npList nodeList ⟨false, false⟩ with
        | (some v, g) => (v, g)
        | (none, g) =>
          if ¬ g.nodesSelected then ((false, some (.noNode cr.Name)), g)
          else if ¬ g.interfaceSelected then ((false, some (.noNic cr.Name)), g)
          else ((true, none), g)

/-- A Go `(bool, []string, error)` result. -/
structure Admission where
  admitted : Bool
  warnings : List String
  err : Option ValidationError
  deriving DecidableEq, Repr

/-- The warning appended at lines 66-67. -/
def notUsedWarning (env : Env) (cr : SriovNetworkNodePolicy) : String :=
  cr.Name ++ (" is created or updated but not used. Only policy in " ++ env.NAMESPACE ++
    " namespace is respected.")

/-- `validateSriovNetworkNodePolicy` (lines 51-86). -/
def validateSriovNetworkNodePolicy (env : Env) (parsePF : String → PFName) (cluster : Cluster)
    (cr : SriovNetworkNodePolicy) (operation : Operation) : Admission :=
  if cr.Name = env.DefaultPolicyName ∧ cr.Namespace = env.NAMESPACE then
    if operation = .Delete then ⟨false, [], some .defaultPolicyDelete⟩
    else ⟨true, [], none⟩
  else
    let warnings : List String :=
      if cr.Namespace ≠ env.NAMESPACE then [notUsedWarning env cr] else []
    if operation = .Delete then ⟨true, warnings, none⟩
    else if (staticValidateSriovNetworkNodePolicy env cr).2 ≠ none then
      ⟨(staticValidateSriovNetworkNodePolicy env cr).1, warnings,
        (staticValidateSriovNetworkNodePolicy env cr).2⟩
    else
      ⟨(dynamicValidateSriovNetworkNodePolicy env parsePF cluster cr).1.1, warnings,
        (dynamicValidateSriovNetworkNodePolicy env parsePF cluster cr).1.2⟩

/-- `sriovnetworkv1.SriovOperatorConfig`: object name and `Spec.DisableDrain`. -/
structure SriovOperatorConfig where
  Name : String
  DisableDrain : Bool
  deriving DecidableEq, Repr

/-- The warning appended at line 44. -/
def drainWarning : String :=
  "Node draining is disabled for applying SriovNetworkNodePolicy, it may result in workload interruption."

/-- `validateSriovOperatorConfig` (lines 34-49). -/
def validateSriovOperatorConfig (env : Env) (cr : SriovOperatorConfig) (operation : Operation) :
    Admission :=
  if cr.Name = env.DefaultConfigName then
    if operation = .Delete then ⟨false, [], some .defaultConfigDelete⟩
    else ⟨true, if cr.DisableDrain then [drainWarning] else [], none⟩
  else ⟨false, [], some .onlyDefaultConfig⟩

/-! ## Statements of the specification -/

/-- The spec's overlap test of two parsed ranges: NOT (candidateEnd < otherStart OR
candidateStart > otherEnd). -/
def rangesOverlap (cand other : PFName) : Prop :=
  ¬ (cand.rngEnd < other.rngSt ∨ cand.rngSt > other.rngEnd)

instance (cand other : PFName) : Decidable (rangesOverlap cand other) := by
  unfold rangesOverlap; infer_instance

/-- The spec's conflict condition of the Conflict Evaluator: some token of the candidate
and some token of the other policy have equal base names and overlapping ranges. -/
def hasOverlappingPair (parsePF : String → PFName) (current previous : SriovNetworkNodePolicy) :
    Prop :=
  ∃ curPf ∈ current.Spec.NicSelector.PfNames, ∃ prePf ∈ previous.Spec.NicSelector.PfNames,
    (parsePF curPf).ifName = (parsePF prePf).ifName ∧
      rangesOverlap (parsePF curPf) (parsePF prePf)

/-- A policy with the given name, PF name tokens and `NumVfs`, selecting by PF name
only. -/
def pfPolicy (name : String) (pfNames : List String) (numVfs : Int) : SriovNetworkNodePolicy :=
  { Name := name, Namespace := "sriov-network-operator",
    Spec := { ResourceName := "res", NodeSelector := [], NumVfs := numVfs,
              NicSelector := { Vendor := "", DeviceID := "", RootDevices := [],
                               PfNames := pfNames, NetFilter := "" },
              DeviceType := "netdevice", IsRdma := false, LinkType := "eth",
              EswitchMode := "legacy", VdpaType := "" } }

/-- The spec's well-formed range token for a policy requesting `numVfs` VFs: the form
`name#start-end` with exactly one `#`, exactly two dash-separated bounds that both parse
as non-negative decimal integers, start at most end, and end strictly less than
`numVfs`. -/
def WellFormedRange (numVfs : Int) (pf : String) : Prop :=
  ∃ (name rng st en : List Char) (s e : Int),
    pf.data = name ++ '#' :: rng ∧ '#' ∉ name ∧ '#' ∉ rng ∧
    rng = st ++ '-' :: en ∧ '-' ∉ st ∧ '-' ∉ en ∧
    Atoi st = some s ∧ Atoi en = some e ∧ 0 ≤ s ∧ 0 ≤ e ∧ s ≤ e ∧ e < numVfs

/-- Rule 1 of the Static Rule Checker: ResourceName matches `^[a-zA-Z0-9_]+$`. -/
def rule1 (cr : SriovNetworkNodePolicy) : Prop :=
  cr.Spec.ResourceName.data ≠ [] ∧ ∀ c ∈ cr.Spec.ResourceName.data, isWordChar c = true

/-- Rule 2: at least one of vendor, deviceID, pfNames, rootDevices, netFilter is set. -/
def rule2 (cr : SriovNetworkNodePolicy) : Prop :=
  cr.Spec.NicSelector.Vendor ≠ "" ∨ cr.Spec.NicSelector.DeviceID ≠ "" ∨
  cr.Spec.NicSelector.PfNames ≠ [] ∨ cr.Spec.NicSelector.RootDevices ≠ [] ∨
  cr.Spec.NicSelector.NetFilter ≠ ""

/-- Rule 3: the developer-override flag is active, or the vendor (if set) is supported,
the vendor/deviceID pair (if both set) is supported, and the deviceID alone (if only it
is set) is supported. -/
def rule3 (env : Env) (cr : SriovNetworkNodePolicy) : Prop :=
  env.DEV_MODE = "TRUE" ∨
  ((cr.Spec.NicSelector.Vendor ≠ "" → env.IsSupportedVendor cr.Spec.NicSelector.Vendor = true) ∧
   (cr.Spec.NicSelector.Vendor ≠ "" → cr.Spec.NicSelector.DeviceID ≠ "" →
      env.IsSupportedModel cr.Spec.NicSelector.Vendor cr.Spec.NicSelector.DeviceID = true) ∧
   (cr.Spec.NicSelector.Vendor = "" → cr.Spec.NicSelector.DeviceID ≠ "" →
      env.IsSupportedDevice cr.Spec.NicSelector.DeviceID = true))

/-- Rule 4: every pfNames token containing `#` is a well-formed range for the policy's
NumVfs. -/
def rule4 (cr : SriovNetworkNodePolicy) : Prop :=
  ∀ pf ∈ cr.Spec.NicSelector.PfNames, '#' ∈ pf.data → WellFormedRange cr.Spec.NumVfs pf

/-- Rule 5: not (deviceType = vfio-pci and isRdma). -/
def rule5 (cr : SriovNetworkNodePolicy) : Prop :=
  ¬ (cr.Spec.DeviceType = "vfio-pci" ∧ cr.Spec.IsRdma = true)

/-- Rule 6: not (linkType equals IB case-insensitively and not isRdma). -/
def rule6 (cr : SriovNetworkNodePolicy) : Prop :=
  ¬ (EqualFold cr.Spec.LinkType.data "IB".data = true ∧ cr.Spec.IsRdma = false)

/-- Rule 7: not (vdpaType = virtio and deviceType != netdevice). -/
def rule7 (cr : SriovNetworkNodePolicy) : Prop :=
  ¬ (cr.Spec.VdpaType = "virtio" ∧ cr.Spec.DeviceType ≠ "netdevice")

/-- Rule 8: not (vdpaType = virtio and eswitchMode != switchdev). -/
def rule8 (cr : SriovNetworkNodePolicy) : Prop :=
  ¬ (cr.Spec.VdpaType = "virtio" ∧ cr.Spec.EswitchMode ≠ "switchdev")

/-- None of the eight rules of the Static Rule Checker fails. -/
def staticRulesHold (env : Env) (cr : SriovNetworkNodePolicy) : Prop :=
  rule1 cr ∧ rule2 cr ∧ rule3 env cr ∧ rule4 cr ∧ rule5 cr ∧ rule6 cr ∧ rule7 cr ∧ rule8 cr

/-- An environment for concrete evaluations: no developer override, `default` as the
name of the default objects, Intel and Mellanox as supported vendors with one
physical-function and one virtual-function model each, one platform key, and the
lower-case mapping on the ASCII letters (the concrete inputs evaluated in this
environment are ASCII text, where it agrees with `unicode.ToLower`). -/
def exampleEnv : Env :=
  { NAMESPACE := "sriov-network-operator", DEV_MODE := "", DefaultPolicyName := "default",
    DefaultConfigName := "default",
    IsSupportedVendor := fun v => v == "8086" || v == "15b3",
    IsSupportedModel := fun v d => (v == "8086" && d == "158b") || (v == "15b3" && d == "1017"),
    IsSupportedDevice := fun d => d == "158b" || d == "1017",
    IsVfSupportedModel := fun v d => (v == "8086" && d == "154c") || (v == "15b3" && d == "1018"),
    PlatformMap := ["openstack"], unicodeToLower := lowerChar }

/-- The spec's base name of a PF name token: the text before `#`. -/
def baseNameOf (p : String) : String :=
  String.mk (p.data.takeWhile (· != '#'))

/-- The spec's first condition of the Selector Matcher: every non-empty selector field
matches the interface. -/
def selectorFieldsMatch (selector : SriovNetworkNicSelector) (iface : InterfaceExt) : Prop :=
  (selector.Vendor ≠ "" → selector.Vendor = iface.Vendor) ∧
  (selector.DeviceID ≠ "" → selector.DeviceID = iface.DeviceID) ∧
  (selector.RootDevices ≠ [] → iface.PciAddress ∈ selector.RootDevices) ∧
  (selector.PfNames ≠ [] → iface.Name ∈ selector.PfNames.map baseNameOf)

/-- The spec's second condition of the Selector Matcher: the (vendor, deviceID) pair is
in the supported-model registry, or for some recognized platform key the provider ID of
the machine contains it case-insensitively (the lower-cased provider ID contains the
lower-cased key, lower-casing being `strings.ToLower` with the Unicode mapping of the
environment), the selector's netFilter is non-empty and equals the interface's, and the
pair is in the VF-supported registry. -/
def modelAccepted (env : Env) (selector : SriovNetworkNicSelector) (iface : InterfaceExt)
    (node : Node) : Prop :=
  env.IsSupportedModel iface.Vendor iface.DeviceID = true ∨
  ∃ key ∈ env.PlatformMap,
    containsSubstr (ToLower env.unicodeToLower key.data)
        (ToLower env.unicodeToLower node.ProviderID.data) = true ∧
    selector.NetFilter ≠ "" ∧ selector.NetFilter = iface.NetFilter ∧
    env.IsVfSupportedModel iface.Vendor iface.DeviceID = true

/-- An Intel interface of a supported model with 8 VFs. -/
def intelIface : InterfaceExt :=
  { Name := "ens1f0", Vendor := "8086", DeviceID := "158b", PciAddress := "0000:3b:00.0",
    TotalVfs := 8, NetFilter := "" }

/-- A bare-metal machine with no labels. -/
def bareMetalNode : Node :=
  { Name := "worker-0", Labels := [], ProviderID := "" }

/-- The distinguished default policy object: the guard of line 55, the default policy
name in the namespace of the operator. -/
def isDefaultPolicy (env : Env) (cr : SriovNetworkNodePolicy) : Prop :=
  cr.Name = env.DefaultPolicyName ∧ cr.Namespace = env.NAMESPACE

instance (env : Env) (cr : SriovNetworkNodePolicy) : Decidable (isDefaultPolicy env cr) := by
  unfold isDefaultPolicy; infer_instance

/-- The spec's capacity and vendor conditions of step 5 for one interface: an Intel
interface has at least the requested VFs, a Mellanox interface is asked for at most 128
VFs, and a virtio policy meets a Mellanox interface only. -/
def withinLimits (policy : SriovNetworkNodePolicy) (iface : InterfaceExt) : Prop :=
  (iface.Vendor = "8086" → policy.Spec.NumVfs ≤ iface.TotalVfs) ∧
  (iface.Vendor = "15b3" → policy.Spec.NumVfs ≤ 128) ∧
  (policy.Spec.VdpaType = "virtio" → iface.Vendor = "15b3")

instance (policy : SriovNetworkNodePolicy) (iface : InterfaceExt) :
    Decidable (withinLimits policy iface) := by
  unfold withinLimits; infer_instance

/-- A cluster with one bare-metal machine carrying the Intel interface and no other
policy. -/
def exampleCluster : Cluster :=
  { nodeList := .ok [bareMetalNode],
    nsList := .ok [{ Name := "worker-0", Interfaces := [intelIface] }],
    npList := .ok [] }

/-- The default policy object of `exampleEnv` with a resource name outside
`^[a-zA-Z0-9_]+$`. -/
def defaultPolicyBadName : SriovNetworkNodePolicy :=
  { Name := "default", Namespace := "sriov-network-operator",
    Spec := { ResourceName := "bad-name", NodeSelector := [], NumVfs := 0,
              NicSelector := { Vendor := "", DeviceID := "", RootDevices := [],
                               PfNames := [], NetFilter := "" },
              DeviceType := "netdevice", IsRdma := false, LinkType := "eth",
              EswitchMode := "legacy", VdpaType := "" } }

/-- The range `[0, numVfs - 1]` the spec attributes to a token `name` with no `#` of a
policy requesting `numVfs` VFs. -/
def fullRange (name : String) (numVfs : Int) : PFName :=
  ⟨name, 0, numVfs - 1, false⟩

/-- The policy `cr` with its `Spec.LinkType` replaced by `linkType`, otherwise equal. -/
def withLinkType (cr : SriovNetworkNodePolicy) (linkType : String) : SriovNetworkNodePolicy :=
  { cr with Spec := { cr.Spec with LinkType := linkType } }

/-- The environment `env` with the four support registries replaced. -/
def withRegistries (env : Env) (vendor : String → Bool) (model : String → String → Bool)
    (device : String → Bool) (vfModel : String → String → Bool) : Env :=
  { env with IsSupportedVendor := vendor, IsSupportedModel := model,
             IsSupportedDevice := device, IsVfSupportedModel := vfModel }

/-- The registry part of rule 3: the vendor (if set) is supported, the vendor/deviceID
pair (if both set) is supported, and the deviceID alone (if only it is set) is
supported. -/
def registrySupports (env : Env) (cr : SriovNetworkNodePolicy) : Prop :=
  (cr.Spec.NicSelector.Vendor ≠ "" → env.IsSupportedVendor cr.Spec.NicSelector.Vendor = true) ∧
  (cr.Spec.NicSelector.Vendor ≠ "" → cr.Spec.NicSelector.DeviceID ≠ "" →
     env.IsSupportedModel cr.Spec.NicSelector.Vendor cr.Spec.NicSelector.DeviceID = true) ∧
  (cr.Spec.NicSelector.Vendor = "" → cr.Spec.NicSelector.DeviceID ≠ "" →
     env.IsSupportedDevice cr.Spec.NicSelector.DeviceID = true)

/-- A policy selecting by vendor only, with the given vendor, device type, RDMA flag,
link type, vdpa type and eswitch mode. -/
def vendorPolicy (vendor deviceType : String) (isRdma : Bool)
    (linkType vdpaType eswitchMode : String) : SriovNetworkNodePolicy :=
  { Name := "a", Namespace := "sriov-network-operator",
    Spec := { ResourceName := "res", NodeSelector := [], NumVfs := 4,
              NicSelector := { Vendor := vendor, DeviceID := "", RootDevices := [],
                               PfNames := [], NetFilter := "" },
              DeviceType := deviceType, IsRdma := isRdma, LinkType := linkType,
              EswitchMode := eswitchMode, VdpaType := vdpaType } }

/-- The environment `exampleEnv` with the developer-override flag active. -/
def devModeEnv : Env :=
  { exampleEnv with DEV_MODE := "TRUE" }

/-- The spec's scan of the Conflict Evaluator: the pairs of a candidate token and a
token of the other policy, candidate tokens in order and, for each, the other policy's
tokens in order. -/
def tokenPairs (curPfs prePfs : List String) : List (String × String) :=
  curPfs.flatMap fun c => prePfs.map fun p => (c, p)

/-- The first pair of the scan with equal base names, if any. -/
def firstCoincidingPair (parsePF : String → PFName) (curPfs prePfs : List String) :
    Option (String × String) :=
  (tokenPairs curPfs prePfs).find? fun cp => (parsePF cp.1).ifName == (parsePF cp.2).ifName

/-- The spec's verdict of the Conflict Evaluator read off the first coinciding pair: no
conflict when no pair has equal base names, otherwise the overlap test of that pair. -/
def firstPairVerdict (parsePF : String → PFName) (previousName : String)
    (curPfs prePfs : List String) : Verdict :=
  match firstCoincidingPair parsePF curPfs prePfs with
  | none => (true, none)
  | some cp =>
    if rangesOverlap (parsePF cp.1) (parsePF cp.2) then
      (false, some (.overlap cp.1 previousName))
    else (true, none)

/-- `corev1.NodeSelectorOperator`. -/
inductive NodeSelectorOperator where
  | NodeSelectorOpIn
  | NodeSelectorOpNotIn
  | NodeSelectorOpExists
  | NodeSelectorOpDoesNotExist
  | NodeSelectorOpGt
  | NodeSelectorOpLt
  deriving DecidableEq, Repr

/-- `corev1.NodeSelectorRequirement`. -/
structure NodeSelectorRequirement where
  Key : String
  Operator : NodeSelectorOperator
  Values : List String
  deriving DecidableEq, Repr

/-- `corev1.NodeSelectorTerm`, the field `MatchExpressions`. -/
structure NodeSelectorTerm where
  MatchExpressions : List NodeSelectorRequirement
  deriving DecidableEq, Repr

/-- Modelled from the spec: the match-expressions built for one policy by
`nodeSelectorTermsForPolicyList`: one expression per label key of the NodeSelector,
appended in key order, with the operator "value is in {single value}". -/
def matchExpressionsForSelector (nodeSelector : List (String × String)) :
    List NodeSelectorRequirement :=
  nodeSelector.foldl
    (fun expressions kv => expressions ++ [⟨kv.1, .NodeSelectorOpIn, [kv.2]⟩]) []

/-- Modelled from the spec: `nodeSelectorTermsForPolicyList` (package `controllers`; its
test `TestNodeSelectorMerge` alone is under `src/`): the node-selector merge function
taking an ordered sequence of policies and producing an ordered sequence of selector
terms, one per policy, appended in policy order. -/
def nodeSelectorTermsForPolicyList (policies : List SriovNetworkNodePolicy) :
    List NodeSelectorTerm :=
  policies.foldl
    (fun terms p => terms ++ [⟨matchExpressionsForSelector p.Spec.NodeSelector⟩]) []

/-- A policy as in `TestNodeSelectorMerge`: every field empty but the NodeSelector. -/
def selectorPolicy (nodeSelector : List (String × String)) : SriovNetworkNodePolicy :=
  { Name := "", Namespace := "",
    Spec := { ResourceName := "", NodeSelector := nodeSelector, NumVfs := 0,
              NicSelector := { Vendor := "", DeviceID := "", RootDevices := [],
                               PfNames := [], NetFilter := "" },
              DeviceType := "", IsRdma := false, LinkType := "",
              EswitchMode := "", VdpaType := "" } }

/-- The match-expression "`key` In [`value`]". -/
def inExpression (kv : String × String) : NodeSelectorRequirement :=
  ⟨kv.1, .NodeSelectorOpIn, [kv.2]⟩

/-- The rule of the Static Rule Checker a rejection reason belongs to, in the spec's
numbering 1 to 8; 0 for a reason the checker does not produce. -/
def reasonRule : ValidationError → Nat
  | .resourceName _ => 1
  | .emptySelector _ => 2
  | .vendorNotSupported _ => 3
  | .modelNotSupported _ _ => 3
  | .deviceNotSupported _ => 3
  | .pfSeparator _ => 4
  | .pfRangeChar _ => 4
  | .pfStartRange _ => 4
  | .pfEndRange _ => 4
  | .pfEndSmaller _ => 4
  | .pfEndExceeds _ => 4
  | .vfioRdma => 5
  | .ibRdma => 6
  | .vdpaDeviceType _ => 7
  | .vdpaSwitchdev => 8
  | _ => 0

/-- Rule number `k` of the Static Rule Checker holds (true for a `k` outside 1 to 8). -/
def ruleHolds (env : Env) (cr : SriovNetworkNodePolicy) : Nat → Prop
  | 1 => rule1 cr
  | 2 => rule2 cr
  | 3 => rule3 env cr
  | 4 => rule4 cr
  | 5 => rule5 cr
  | 6 => rule6 cr
  | 7 => rule7 cr
  | 8 => rule8 cr
  | _ => True

/-- Some listed machine is selected by the policy's NodeSelector. -/
def someNodeSelected (cr : SriovNetworkNodePolicy) (nodeList : List Node) : Prop :=
  ∃ node ∈ nodeList, Selected cr node = true

/-- Some interface of a node state belonging to a selected listed machine is matched by
`validateNicModel`. -/
def someInterfaceMatched (env : Env) (cr : SriovNetworkNodePolicy) (nodeList : List Node)
    (nsList : List SriovNetworkNodeState) : Prop :=
  ∃ node ∈ nodeList, Selected cr node = true ∧
    ∃ ns ∈ nsList, ns.Name = node.Name ∧
      ∃ iface ∈ ns.Interfaces, validateNicModel env cr.Spec.NicSelector iface node = true

/-- No per-machine check rejects: for every selected listed machine, every node state of
the machine passes `validatePolicyForNodeState` and every other policy selecting the
machine passes `validatePolicyForNodePolicy`. -/
def noCheckRejects (env : Env) (parsePF : String → PFName) (cr : SriovNetworkNodePolicy)
    (nodeList : List Node) (nsList : List SriovNetworkNodeState)
    (npList : List SriovNetworkNodePolicy) : Prop :=
  ∀ node ∈ nodeList, Selected cr node = true →
    (∀ ns ∈ nsList, ns.Name = node.Name →
      (validatePolicyForNodeState env cr ns node false).1 = (true, none)) ∧
    (∀ np ∈ npList, np.Name ≠ cr.Name → Selected np node = true →
      validatePolicyForNodePolicy parsePF cr np = (true, none))

instance (cr : SriovNetworkNodePolicy) (nodeList : List Node) :
    Decidable (someNodeSelected cr nodeList) := by
  unfold someNodeSelected; infer_instance

instance (env : Env) (cr : SriovNetworkNodePolicy) (nodeList : List Node)
    (nsList : List SriovNetworkNodeState) :
    Decidable (someInterfaceMatched env cr nodeList nsList) := by
  unfold someInterfaceMatched; infer_instance

instance (env : Env) (parsePF : String → PFName) (cr : SriovNetworkNodePolicy)
    (nodeList : List Node) (nsList : List SriovNetworkNodeState)
    (npList : List SriovNetworkNodePolicy) :
    Decidable (noCheckRejects env parsePF cr nodeList nsList npList) := by
  unfold noCheckRejects; infer_instance

/-- The environment `exampleEnv` with the lower-case mapping extended to U+212A KELVIN
SIGN, which `unicode.ToLower` maps to `k`. -/
def kelvinEnv : Env :=
  { exampleEnv with
    unicodeToLower := fun c => if c = Char.ofNat 0x212A then 'k' else lowerChar c }

/-- A virtual-function interface of a VF-supported model that is not in the
supported-model registry, with a net-filter tag. -/
def vfIface : InterfaceExt :=
  { Name := "ens3", Vendor := "8086", DeviceID := "154c", PciAddress := "0000:00:05.0",
    TotalVfs := 0, NetFilter := "openstack/NetworkID:net-1" }

/-- A selector by net-filter only. -/
def netFilterSelector : SriovNetworkNicSelector :=
  { Vendor := "", DeviceID := "", RootDevices := [], PfNames := [],
    NetFilter := "openstack/NetworkID:net-1" }

/-- A virtual machine whose provider ID spells the platform with U+212A KELVIN SIGN in
place of the last letter of `openstack`. -/
def kelvinNode : Node :=
  { Name := "vm-0", Labels := [],
    ProviderID := String.mk ("openstac".data ++ [Char.ofNat 0x212A] ++ ":///abc".data) }

/-! ## Theorems -/

/-- C1 (fails on the code): the candidate `["ens1#0-1", "ens2#0-3"]` and the other
policy `["ens1#2-3", "ens2#0-3"]` have different names, all four tokens parse, and the
pair `ens2#0-3` / `ens2#0-3` has equal base names and overlapping ranges; yet
`validatePolicyForNodePolicy` returns `true, nil`, because it returns at the first
pair with equal base names (`ens1#0-1` / `ens1#2-3`, disjoint). -/
theorem validatePolicyForNodePolicy_misses_later_overlap :
    validatePolicyForNodePolicy ParsePFName
        (pfPolicy "a" ["ens1#0-1", "ens2#0-3"] 4) (pfPolicy "b" ["ens1#2-3", "ens2#0-3"] 4)
      = (true, none) ∧
    (pfPolicy "a" ["ens1#0-1", "ens2#0-3"] 4).Name ≠ (pfPolicy "b" ["ens1#2-3", "ens2#0-3"] 4).Name ∧
    (∀ pf ∈ ["ens1#0-1", "ens2#0-3", "ens1#2-3", "ens2#0-3"], (ParsePFName pf).err = false) ∧
    hasOverlappingPair ParsePFName
        (pfPolicy "a" ["ens1#0-1", "ens2#0-3"] 4) (pfPolicy "b" ["ens1#2-3", "ens2#0-3"] 4) := by
  refine ⟨by decide, by decide, by decide, ?_⟩
  exact ⟨"ens2#0-3", by decide, "ens2#0-3", by decide, by decide, by decide⟩

/-! ### Splitting and parsing -/

theorem splitChar_ne_nil (c : Char) (s : List Char) : splitChar c s ≠ [] := by
  cases s with
  | nil => simp [splitChar]
  | cons x xs =>
    unfold splitChar
    split
    · simp
    · split <;> simp

theorem splitChar_of_not_mem (c : Char) (s : List Char) (h : c ∉ s) : splitChar c s = [s] := by
  induction s with
  | nil => simp [splitChar]
  | cons x xs ih =>
    simp only [List.mem_cons, not_or] at h
    have hx : ¬ x = c := fun e => h.1 e.symm
    simp [splitChar, hx, ih h.2]

theorem splitChar_append_cons (c : Char) (a b : List Char) (h : c ∉ a) :
    splitChar c (a ++ c :: b) = a :: splitChar c b := by
  induction a with
  | nil => simp [splitChar]
  | cons x xs ih =>
    simp only [List.mem_cons, not_or] at h
    have hx : ¬ x = c := fun e => h.1 e.symm
    simp [splitChar, hx, ih h.2]

theorem splitChar_eq_singleton (c : Char) (s a : List Char) (h : splitChar c s = [a]) :
    c ∉ s ∧ s = a := by
  induction s generalizing a with
  | nil => simp [splitChar] at h; simp [h]
  | cons x xs ih =>
    unfold splitChar at h
    by_cases hx : x = c
    · simp [hx, splitChar_ne_nil] at h
    · simp only [hx, if_false] at h
      cases hs : splitChar c xs with
      | nil => exact absurd hs (splitChar_ne_nil c xs)
      | cons p ps =>
        rw [hs] at h
        simp at h
        obtain ⟨h1, h2⟩ := h
        subst h2
        obtain ⟨i1, i2⟩ := ih p hs
        subst i2
        subst h1
        simp [i1, Ne.symm hx]

theorem splitChar_eq_pair (c : Char) (s a b : List Char) (h : splitChar c s = [a, b]) :
    s = a ++ c :: b ∧ c ∉ a ∧ c ∉ b := by
  induction s generalizing a with
  | nil => simp [splitChar] at h
  | cons x xs ih =>
    unfold splitChar at h
    by_cases hx : x = c
    · simp only [hx, if_true] at h
      simp at h
      obtain ⟨h1, h2⟩ := h
      obtain ⟨i1, i2⟩ := splitChar_eq_singleton c xs b h2
      subst h1; subst i2; subst hx
      simp [i1]
    · simp only [hx, if_false] at h
      cases hs : splitChar c xs with
      | nil => exact absurd hs (splitChar_ne_nil c xs)
      | cons p ps =>
        rw [hs] at h
        simp at h
        obtain ⟨h1, h2⟩ := h
        subst h2; subst h1
        obtain ⟨i1, i2, i3⟩ := ih p hs
        subst i1
        simp [i2, i3]
        exact fun e => hx e.symm





theorem containsChar_iff (c : Char) (s : List Char) : containsChar c s = true ↔ c ∈ s := by
  simp [containsChar]

theorem Atoi_nonneg (s : List Char) (v : Int) (h : Atoi s = some v) (hm : '-' ∉ s) : 0 ≤ v := by
  cases s with
  | nil => simp [Atoi] at h
  | cons c rest =>
    simp only [List.mem_cons, not_or] at hm
    have hc : ¬ c = '-' := fun e => hm.1 e.symm
    simp only [Atoi, hc, if_false] at h
    split at h
    · split at h
      · split at h
        · simp at h; omega
        · simp at h
      · simp at h
    · split at h
      · split at h
        · simp at h; omega
        · simp at h
      · simp at h

theorem checkPfName_eq_none_iff (numVfs : Int) (pf : String) :
    checkPfName numVfs pf = none ↔ ('#' ∈ pf.data → WellFormedRange numVfs pf) := by
  unfold checkPfName
  by_cases hc : '#' ∈ pf.data
  · have hc2 : containsChar '#' pf.data = true := (containsChar_iff _ _).2 hc
    simp only [hc2, if_true, hc, forall_const]
    constructor
    · intro h
      split at h
      · rename_i n f1 hsplit
        split at h
        · rename_i r0 r1 hsplit2
          split at h
          · simp at h
          · rename_i rngSt hSt
            split at h
            · simp at h
            · rename_i rngEnd hEnd
              split at h
              · simp at h
              · split at h
                · simp at h
                · rename_i h1 h2
                  obtain ⟨e1, e2, e3⟩ := splitChar_eq_pair _ _ _ _ hsplit
                  obtain ⟨d1, d2, d3⟩ := splitChar_eq_pair _ _ _ _ hsplit2
                  have n0 := Atoi_nonneg _ _ hSt d2
                  have n1 := Atoi_nonneg _ _ hEnd d3
                  exact ⟨n, f1, r0, r1, rngSt, rngEnd, e1, e2, e3, d1, d2, d3, hSt, hEnd, n0, n1,
                    by omega, by omega⟩
        · simp at h
      · simp at h
    · rintro ⟨name, rng, st, en, s, e, h1, h2, h3, h4, h5, h6, h7, h8, h9, h10, h11, h12⟩
      have hs1 : splitChar '#' pf.data = [name, rng] := by
        rw [h1, splitChar_append_cons _ _ _ h2, splitChar_of_not_mem _ _ h3]
      have hs2 : splitChar '-' rng = [st, en] := by
        rw [h4, splitChar_append_cons _ _ _ h5, splitChar_of_not_mem _ _ h6]
      simp only [hs1, hs2, h7, h8]
      have : ¬ e < s := by omega
      simp [this, h12]
  · have hc2 : ¬ containsChar '#' pf.data = true := fun h => hc ((containsChar_iff _ _).1 h)
    simp [hc2, hc]

theorem checkPfNames_eq_none_iff (numVfs : Int) (l : List String) :
    checkPfNames numVfs l = none ↔ ∀ pf ∈ l, checkPfName numVfs pf = none := by
  induction l with
  | nil => simp [checkPfNames]
  | cons pf rest ih =>
    unfold checkPfNames
    cases h : checkPfName numVfs pf with
    | none => simp [ih, h]
    | some e => simp [h]





theorem validString_iff (s : List Char) :
    validString s = true ↔ s ≠ [] ∧ ∀ c ∈ s, isWordChar c = true := by
  cases s <;> simp [validString]

theorem checkSupported_eq_none_iff (env : Env) (sel : SriovNetworkNicSelector) :
    checkSupported env sel = none ↔
      ((sel.Vendor ≠ "" → env.IsSupportedVendor sel.Vendor = true) ∧
       (sel.Vendor ≠ "" → sel.DeviceID ≠ "" → env.IsSupportedModel sel.Vendor sel.DeviceID = true) ∧
       (sel.Vendor = "" → sel.DeviceID ≠ "" → env.IsSupportedDevice sel.DeviceID = true)) := by
  unfold checkSupported
  by_cases hv : sel.Vendor = "" <;> by_cases hd : sel.DeviceID = "" <;>
    by_cases h1 : env.IsSupportedVendor sel.Vendor = true <;>
    by_cases h2 : env.IsSupportedModel sel.Vendor sel.DeviceID = true <;>
    by_cases h3 : env.IsSupportedDevice sel.DeviceID = true <;>
    simp [hv, hd, h1, h2, h3]

theorem staticValidate_cases (env : Env) (cr : SriovNetworkNodePolicy) :
    staticValidateSriovNetworkNodePolicy env cr = (true, none) ∨
    ∃ e, staticValidateSriovNetworkNodePolicy env cr = (false, some e) := by
  unfold staticValidateSriovNetworkNodePolicy
  split
  · exact Or.inr ⟨_, rfl⟩
  · split
    · exact Or.inr ⟨_, rfl⟩
    · dsimp only
      split
      · exact Or.inr ⟨_, rfl⟩
      · split
        · exact Or.inr ⟨_, rfl⟩
        · split
          · exact Or.inr ⟨_, rfl⟩
          · split
            · exact Or.inr ⟨_, rfl⟩
            · split
              · exact Or.inr ⟨_, rfl⟩
              · split
                · exact Or.inr ⟨_, rfl⟩
                · exact Or.inl rfl

theorem staticValidate_admits_iff (env : Env) (cr : SriovNetworkNodePolicy) :
    staticValidateSriovNetworkNodePolicy env cr = (true, none) ↔ staticRulesHold env cr := by
  unfold staticRulesHold rule1 rule2 rule3 rule4 rule5 rule6 rule7 rule8
  rw [← validString_iff]
  have h4 : (∀ pf ∈ cr.Spec.NicSelector.PfNames, '#' ∈ pf.data →
      WellFormedRange cr.Spec.NumVfs pf) ↔
      checkPfNames cr.Spec.NumVfs cr.Spec.NicSelector.PfNames = none := by
    rw [checkPfNames_eq_none_iff]
    exact forall_congr' fun pf => forall_congr' fun _ => (checkPfName_eq_none_iff _ _).symm
  rw [h4, ← checkSupported_eq_none_iff]
  constructor
  · intro h
    unfold staticValidateSriovNetworkNodePolicy at h
    split at h
    · simp at h
    split at h
    · simp at h
    dsimp only at h
    split at h
    · simp at h
    split at h
    · simp at h
    split at h
    · simp at h
    split at h
    · simp at h
    split at h
    · simp at h
    split at h
    · simp at h
    rename_i a1 a2 _ a3 _ a4 a5 a6 a7 a8
    refine ⟨by simpa using a1, ?_, ?_, a4, a5, ?_, ?_, a8⟩
    · by_contra hcon
      apply a2
      simp only [not_or, not_not] at hcon
      simpa [List.length_eq_zero] using hcon
    · by_cases c3 : env.DEV_MODE = "TRUE"
      · exact Or.inl c3
      · right; simpa [c3] using a3
    · intro hcon; exact a6 ⟨hcon.1, by simp [hcon.2]⟩
    · intro hcon; exact a7 ⟨hcon.2, hcon.1⟩
  · rintro ⟨b1, b2, b3, b4, b5, b6, b7, b8⟩
    unfold staticValidateSriovNetworkNodePolicy
    rw [if_neg (by simpa using b1), if_neg]
    · have e3 : (if ¬ (decide (env.DEV_MODE = "TRUE")) = true then
          checkSupported env cr.Spec.NicSelector else none) = none := by
        rcases b3 with b3 | b3
        · simp [b3]
        · simp [b3]
      dsimp only
      rw [e3]
      dsimp only
      rw [b4]
      dsimp only
      split
      · rename_i hcon; exact absurd hcon b5
      split
      · rename_i hcon; exact absurd ⟨hcon.1, by simpa using hcon.2⟩ b6
      split
      · rename_i hcon; exact absurd ⟨hcon.2, hcon.1⟩ b7
      split
      · rename_i hcon; exact absurd hcon b8
      rfl
    · rintro ⟨c1, c2, c3, c4, c5⟩
      simp only [List.length_eq_zero] at c3 c4
      rcases b2 with h | h | h | h | h <;> exact h (by assumption)

/-- C2: `staticValidateSriovNetworkNodePolicy` returns `true, nil` if and only if none of
the eight rules fails, and in every other case it returns `false` with a non-nil
error. -/
theorem staticValidate_admits_iff_no_rule_fails (env : Env) (cr : SriovNetworkNodePolicy) :
    (staticValidateSriovNetworkNodePolicy env cr = (true, none) ↔ staticRulesHold env cr) ∧
    (¬ staticRulesHold env cr →
      (staticValidateSriovNetworkNodePolicy env cr).1 = false ∧
      (staticValidateSriovNetworkNodePolicy env cr).2 ≠ none) := by
  refine ⟨staticValidate_admits_iff env cr, fun hn => ?_⟩
  rcases staticValidate_cases env cr with h | ⟨e, h⟩
  · exact absurd ((staticValidate_admits_iff env cr).1 h) hn
  · simp [h]

/-- Witness of C2: a policy selecting by PF name `ens1#0-1` with 4 VFs satisfies the
eight rules, and a policy with an empty selector is denied with an error. -/
theorem staticValidate_admits_iff_no_rule_fails_witness :
    staticRulesHold exampleEnv (pfPolicy "a" ["ens1#0-1"] 4) ∧
    ((staticValidateSriovNetworkNodePolicy exampleEnv (pfPolicy "a" [] 4)).1 = false ∧
      (staticValidateSriovNetworkNodePolicy exampleEnv (pfPolicy "a" [] 4)).2 ≠ none) :=
  ⟨(staticValidate_admits_iff_no_rule_fails exampleEnv (pfPolicy "a" ["ens1#0-1"] 4)).1.1
      (by decide),
    (staticValidate_admits_iff_no_rule_fails exampleEnv (pfPolicy "a" [] 4)).2
      (fun h => absurd h.2.1 (by unfold rule2; decide))⟩

/-- C3: the range rule accepts a token containing `#` only if it is a well-formed range
for the policy's NumVfs (one `#`, two dash-separated bounds parsing as non-negative
integers, start at most end, end below NumVfs); `name#2-5` is accepted when NumVfs is at
least 6, `name#5-2` is rejected for every NumVfs (inverted range), and `name#2-5` is
rejected when NumVfs is 5 (end exceeds the maximum VF index). -/
theorem checkPfName_accepts_only_well_formed :
    (∀ (numVfs : Int) (pf : String), '#' ∈ pf.data → checkPfName numVfs pf = none →
      WellFormedRange numVfs pf) ∧
    (∀ numVfs : Int, 6 ≤ numVfs → checkPfName numVfs "name#2-5" = none) ∧
    (∀ numVfs : Int, checkPfName numVfs "name#5-2" = some (.pfEndSmaller "name#5-2")) ∧
    checkPfName 5 "name#2-5" = some (.pfEndExceeds "name#2-5") := by
  refine ⟨fun numVfs pf hc h => (checkPfName_eq_none_iff numVfs pf).1 h hc, ?_, fun _ => rfl,
    by decide⟩
  intro n h
  show (if ¬ ((5 : Int) < n) then some (ValidationError.pfEndExceeds "name#2-5") else none) = none
  rw [if_neg (by omega)]

/-- Witness of C3: `name#2-5` is accepted for NumVfs 6 and is a well-formed range
there. -/
theorem checkPfName_accepts_only_well_formed_witness :
    checkPfName 6 "name#2-5" = none ∧ WellFormedRange 6 "name#2-5" :=
  ⟨checkPfName_accepts_only_well_formed.2.1 6 (by decide),
    checkPfName_accepts_only_well_formed.1 6 "name#2-5" (by decide) (by decide)⟩

/-! ### Selector Matcher -/

theorem splitChar_head (c : Char) (s : List Char) :
    (splitChar c s).headD [] = s.takeWhile (· != c) := by
  induction s with
  | nil => simp [splitChar]
  | cons x xs ih =>
    unfold splitChar
    by_cases hx : x = c
    · simp [hx]
    · cases hs : splitChar c xs with
      | nil => exact absurd hs (splitChar_ne_nil c xs)
      | cons p ps =>
        rw [hs] at ih
        simp at ih
        simp [hx, ih, List.takeWhile_cons]

theorem takeWhile_ne_of_not_mem (c : Char) (s : List Char) (h : c ∉ s) :
    s.takeWhile (· != c) = s := by
  induction s with
  | nil => rfl
  | cons x xs ih =>
    simp only [List.mem_cons, not_or] at h
    have hx : ¬ x = c := fun e => h.1 e.symm
    simp [List.takeWhile_cons, hx, ih h.2]

theorem pfBaseName_eq_baseNameOf (p : String) : pfBaseName p = baseNameOf p := by
  unfold pfBaseName baseNameOf
  by_cases hc : '#' ∈ p.data
  · rw [if_pos ((containsChar_iff _ _).2 hc), splitChar_head]
  · rw [if_neg (fun h => hc ((containsChar_iff _ _).1 h)), takeWhile_ne_of_not_mem _ _ hc]

theorem platform_any_iff (env : Env) (selector : SriovNetworkNicSelector)
    (iface : InterfaceExt) (node : Node) :
    (env.PlatformMap.any fun key =>
      containsSubstr (ToLower env.unicodeToLower key.data)
        (ToLower env.unicodeToLower node.ProviderID.data) &&
      decide (selector.NetFilter ≠ "") && decide (selector.NetFilter = iface.NetFilter) &&
      env.IsVfSupportedModel iface.Vendor iface.DeviceID) = true ↔
    ∃ key ∈ env.PlatformMap,
      containsSubstr (ToLower env.unicodeToLower key.data)
        (ToLower env.unicodeToLower node.ProviderID.data) = true ∧
      selector.NetFilter ≠ "" ∧ selector.NetFilter = iface.NetFilter ∧
      env.IsVfSupportedModel iface.Vendor iface.DeviceID = true := by
  simp only [List.any_eq_true, Bool.and_eq_true, decide_eq_true_eq, and_assoc]

theorem validateNicModel_iff (env : Env) (selector : SriovNetworkNicSelector)
    (iface : InterfaceExt) (node : Node) :
    validateNicModel env selector iface node = true ↔
      selectorFieldsMatch selector iface ∧ modelAccepted env selector iface node := by
  have hmap : selector.PfNames.map pfBaseName = selector.PfNames.map baseNameOf :=
    List.map_congr_left fun p _ => pfBaseName_eq_baseNameOf p
  unfold validateNicModel selectorFieldsMatch modelAccepted StringInArray
  rw [hmap]
  constructor
  · intro h
    split at h
    · simp at h
    split at h
    · simp at h
    split at h
    · simp at h
    split at h
    · simp at h
    rename_i a1 a2 a3 a4
    refine ⟨⟨?_, ?_, ?_, ?_⟩, ?_⟩
    · intro hv; by_contra hne; exact a1 ⟨hv, hne⟩
    · intro hv; by_contra hne; exact a2 ⟨hv, hne⟩
    · intro hv; by_contra hne; exact a3 ⟨List.length_pos.2 hv, by simpa using hne⟩
    · intro hv; by_contra hne; exact a4 ⟨List.length_pos.2 hv, by simpa using hne⟩
    · split at h
      · rename_i hs; exact Or.inl hs
      · exact Or.inr ((platform_any_iff env selector iface node).1 h)
  · rintro ⟨⟨m1, m2, m3, m4⟩, hb⟩
    rw [if_neg (fun hc => hc.2 (m1 hc.1)), if_neg (fun hc => hc.2 (m2 hc.1)),
      if_neg (fun hc => hc.2 (by simpa using m3 (List.length_pos.1 hc.1))),
      if_neg (fun hc => hc.2 (by simpa using m4 (List.length_pos.1 hc.1)))]
    split
    · rfl
    · rename_i hs
      rcases hb with hb | hb
      · exact absurd hb hs
      · exact (platform_any_iff env selector iface node).2 hb

/-- C4: `validateNicModel` returns true if and only if every non-empty selector field
matches the interface (vendor, deviceID, PCI address among rootDevices, name among the
base names of the pfNames tokens) and the interface's model is accepted (supported-model
registry, or recognized platform with equal non-empty netFilter and VF-supported
registry), for every environment, in particular for every lower-case mapping of
characters used by `strings.ToLower`. -/
theorem validateNicModel_true_iff_fields_and_model (env : Env)
    (selector : SriovNetworkNicSelector) (iface : InterfaceExt) (node : Node) :
    validateNicModel env selector iface node = true ↔
      selectorFieldsMatch selector iface ∧ modelAccepted env selector iface node :=
  validateNicModel_iff env selector iface node

/-- Witness of C4: with the lower-case mapping taking U+212A KELVIN SIGN to `k`, the
VF interface is matched on the machine whose provider ID is `openstac`, KELVIN SIGN,
`:///abc` (the platform key `openstack` is contained after lower-casing); on the
bare-metal machine with an empty provider ID it is not matched. -/
theorem validateNicModel_true_iff_fields_and_model_witness :
    validateNicModel kelvinEnv netFilterSelector vfIface kelvinNode = true ∧
    validateNicModel kelvinEnv netFilterSelector vfIface bareMetalNode = false :=
  ⟨(validateNicModel_true_iff_fields_and_model kelvinEnv netFilterSelector vfIface
      kelvinNode).2
      ⟨by unfold selectorFieldsMatch; decide,
        Or.inr ⟨"openstack", by decide, by decide, by decide, rfl, by decide⟩⟩,
    Bool.eq_false_iff.2 fun h =>
      absurd ((validateNicModel_true_iff_fields_and_model kelvinEnv netFilterSelector vfIface
        bareMetalNode).1 h).2 (by unfold modelAccepted; decide)⟩

/-! ### Admission Orchestrator: DELETE and the static check -/

/-- C5: on DELETE, `validateSriovNetworkNodePolicy` denies with an error for the
distinguished default policy, and for every other policy it admits with no error,
whatever the cluster state, the parser and the policy's spec are. -/
theorem validate_delete (env : Env) (parsePF : String → PFName) (cluster : Cluster)
    (cr : SriovNetworkNodePolicy) :
    (isDefaultPolicy env cr →
      (validateSriovNetworkNodePolicy env parsePF cluster cr .Delete).admitted = false ∧
      (validateSriovNetworkNodePolicy env parsePF cluster cr .Delete).err ≠ none) ∧
    (¬ isDefaultPolicy env cr →
      (validateSriovNetworkNodePolicy env parsePF cluster cr .Delete).admitted = true ∧
      (validateSriovNetworkNodePolicy env parsePF cluster cr .Delete).err = none ∧
      ∀ (parsePF2 : String → PFName) (cluster2 : Cluster) (spec2 : SriovNetworkNodePolicySpec),
        validateSriovNetworkNodePolicy env parsePF2 cluster2 { cr with Spec := spec2 } .Delete =
          validateSriovNetworkNodePolicy env parsePF cluster cr .Delete) := by
  unfold isDefaultPolicy
  constructor
  · intro h
    simp [validateSriovNetworkNodePolicy, h]
  · intro h
    simp [validateSriovNetworkNodePolicy, h, notUsedWarning]

/-- Witness of C5: on DELETE the default policy object is denied with an error and the
policy `a` is admitted. -/
theorem validate_delete_witness :
    ((validateSriovNetworkNodePolicy exampleEnv ParsePFName exampleCluster
        defaultPolicyBadName .Delete).admitted = false ∧
      (validateSriovNetworkNodePolicy exampleEnv ParsePFName exampleCluster
        defaultPolicyBadName .Delete).err ≠ none) ∧
    (validateSriovNetworkNodePolicy exampleEnv ParsePFName exampleCluster
        (pfPolicy "a" ["ens1f0"] 0) .Delete).admitted = true :=
  ⟨(validate_delete exampleEnv ParsePFName exampleCluster defaultPolicyBadName).1 (by decide),
    ((validate_delete exampleEnv ParsePFName exampleCluster (pfPolicy "a" ["ens1f0"] 0)).2
      (by decide)).1⟩

/-- C6 (fails on the code): the default policy object with the resource name `bad-name`
is rejected by `staticValidateSriovNetworkNodePolicy`, and
`validateSriovNetworkNodePolicy` admits its CREATE with no error, since the static check
is skipped for the default policy. -/
theorem validate_create_default_skips_static :
    staticValidateSriovNetworkNodePolicy exampleEnv defaultPolicyBadName =
      (false, some (.resourceName "bad-name")) ∧
    validateSriovNetworkNodePolicy exampleEnv ParsePFName exampleCluster defaultPolicyBadName
      .Create = ⟨true, [], none⟩ := by
  decide

/-- C6 (amended): for every policy other than the distinguished default policy and
every operation that is CREATE or UPDATE, if `staticValidateSriovNetworkNodePolicy`
rejects the policy with reason `e`, then `validateSriovNetworkNodePolicy` returns
admit=false and the reason `e`. -/
theorem validate_static_rejection (env : Env) (parsePF : String → PFName) (cluster : Cluster)
    (cr : SriovNetworkNodePolicy) (operation : Operation) (e : ValidationError)
    (hdef : ¬ isDefaultPolicy env cr) (hop : operation = .Create ∨ operation = .Update)
    (hstatic : staticValidateSriovNetworkNodePolicy env cr = (false, some e)) :
    (validateSriovNetworkNodePolicy env parsePF cluster cr operation).admitted = false ∧
    (validateSriovNetworkNodePolicy env parsePF cluster cr operation).err = some e := by
  unfold isDefaultPolicy at hdef
  have hop2 : operation ≠ .Delete := by rcases hop with h | h <;> simp [h]
  simp [validateSriovNetworkNodePolicy, hdef, hop2, hstatic]

/-- Witness of C6 (amended): the CREATE of policy `a` with an empty selector is denied
with the empty-selector reason of the static check. -/
theorem validate_static_rejection_witness :
    (validateSriovNetworkNodePolicy exampleEnv ParsePFName exampleCluster
        (pfPolicy "a" [] 4) .Create).admitted = false ∧
    (validateSriovNetworkNodePolicy exampleEnv ParsePFName exampleCluster
        (pfPolicy "a" [] 4) .Create).err = some (.emptySelector "a") :=
  validate_static_rejection exampleEnv ParsePFName exampleCluster (pfPolicy "a" [] 4) .Create
    (.emptySelector "a") (by decide) (Or.inl rfl) (by decide)

/-! ### Conflict Evaluator -/

theorem validatePolicyForNodePolicy_single (parsePF : String → PFName)
    (cand other : SriovNetworkNodePolicy) (curPf prePf : String)
    (hname : cand.Name ≠ other.Name)
    (hcur : cand.Spec.NicSelector.PfNames = [curPf])
    (hpre : other.Spec.NicSelector.PfNames = [prePf])
    (herr : (parsePF curPf).err = false)
    (hbase : (parsePF curPf).ifName = (parsePF prePf).ifName) :
    validatePolicyForNodePolicy parsePF cand other =
      if (parsePF curPf).rngEnd < (parsePF prePf).rngSt ∨
          (parsePF curPf).rngSt > (parsePF prePf).rngEnd then (true, none)
      else (false, some (.overlap curPf other.Name)) := by
  by_cases hd : (parsePF curPf).rngEnd < (parsePF prePf).rngSt ∨
      (parsePF curPf).rngSt > (parsePF prePf).rngEnd
  · rw [if_pos hd]
    simp [validatePolicyForNodePolicy, hname, hcur, hpre, conflictOuter, herr,
      conflictInner, hbase, disjointRanges, hd]
  · rw [if_neg hd]
    simp [validatePolicyForNodePolicy, hname, hcur, hpre, conflictOuter, herr,
      conflictInner, hbase, disjointRanges, hd]

theorem validatePolicyForNodePolicy_same_first (parsePF : String → PFName)
    (cur pre : SriovNetworkNodePolicy) (tok : String) (rest1 rest2 : List String)
    (hname : cur.Name ≠ pre.Name)
    (hcur : cur.Spec.NicSelector.PfNames = tok :: rest1)
    (hpre : pre.Spec.NicSelector.PfNames = tok :: rest2)
    (herr : (parsePF tok).err = false)
    (hord : (parsePF tok).rngSt ≤ (parsePF tok).rngEnd) :
    validatePolicyForNodePolicy parsePF cur pre = (false, some (.overlap tok pre.Name)) := by
  have hd : ¬ ((parsePF tok).rngEnd < (parsePF tok).rngSt) := by omega
  simp [validatePolicyForNodePolicy, hname, hcur, hpre, conflictOuter, herr,
    conflictInner, disjointRanges, hd]

theorem ParsePFName_bare (tok : String) (h : '#' ∉ tok.data) :
    ParsePFName tok = ⟨tok, noRangeIndex, noRangeIndex, false⟩ := by
  unfold ParsePFName
  rw [if_neg (fun hc => h ((containsChar_iff _ _).1 hc))]

/-- C7 (fails on the code): the candidate with the single token `p` and NumVfs 4 against
the other policy with the single token `p#1-2` gets `true, nil`, in either role, although
`[1, 2]` overlaps `[0, 3]`.  For every parser the verdict on `p` against `p#1-1` is the
same for a candidate NumVfs of 1 and of 2, although `[1, 1]` overlaps `[0, 1]` and not
`[0, 0]`. -/
theorem validatePolicyForNodePolicy_bare_token_not_full_range :
    validatePolicyForNodePolicy ParsePFName (pfPolicy "a" ["p"] 4) (pfPolicy "b" ["p#1-2"] 4)
      = (true, none) ∧
    rangesOverlap (ParsePFName "p#1-2") (fullRange "p" 4) ∧
    validatePolicyForNodePolicy ParsePFName (pfPolicy "b" ["p#1-2"] 4) (pfPolicy "a" ["p"] 4)
      = (true, none) ∧
    (∀ parsePF : String → PFName,
      validatePolicyForNodePolicy parsePF (pfPolicy "a" ["p"] 1) (pfPolicy "b" ["p#1-1"] 2) =
      validatePolicyForNodePolicy parsePF (pfPolicy "a" ["p"] 2) (pfPolicy "b" ["p#1-1"] 2)) ∧
    ¬ rangesOverlap (ParsePFName "p#1-1") (fullRange "p" 1) ∧
    rangesOverlap (ParsePFName "p#1-1") (fullRange "p" 2) := by
  refine ⟨by decide, by decide, by decide, fun _ => rfl, by decide, by decide⟩

/-- C7 (amended): a PF name token with no `#` is compared through the bounds
`ParsePFName` returns for it, and NumVfs is not consulted: for differently named
policies of any NumVfs where one has the single token `p` (parsed with no error as
`p` with bounds `b0`, `b1`) and the other a single token parsed with no error as `p`
with bounds `s`, `e`, `validatePolicyForNodePolicy` reports a conflict exactly when
`[s, e]` overlaps `[b0, b1]`, in either role. -/
theorem validatePolicyForNodePolicy_bare_token (parsePF : String → PFName)
    (cand other : SriovNetworkNodePolicy) (p tok : String) (b0 b1 s e : Int)
    (hname : cand.Name ≠ other.Name)
    (hp : parsePF p = ⟨p, b0, b1, false⟩) (ht : parsePF tok = ⟨p, s, e, false⟩) :
    (cand.Spec.NicSelector.PfNames = [p] → other.Spec.NicSelector.PfNames = [tok] →
      (validatePolicyForNodePolicy parsePF cand other = (false, some (.overlap p other.Name)) ↔
        ¬ (b1 < s ∨ b0 > e)) ∧
      (validatePolicyForNodePolicy parsePF cand other = (true, none) ↔ (b1 < s ∨ b0 > e))) ∧
    (cand.Spec.NicSelector.PfNames = [tok] → other.Spec.NicSelector.PfNames = [p] →
      (validatePolicyForNodePolicy parsePF cand other = (false, some (.overlap tok other.Name)) ↔
        ¬ (e < b0 ∨ s > b1)) ∧
      (validatePolicyForNodePolicy parsePF cand other = (true, none) ↔ (e < b0 ∨ s > b1))) := by
  constructor
  · intro hc ho
    rw [validatePolicyForNodePolicy_single parsePF cand other p tok hname hc ho (by rw [hp])
      (by rw [hp, ht])]
    simp only [hp, ht]
    split <;> simp_all
  · intro hc ho
    rw [validatePolicyForNodePolicy_single parsePF cand other tok p hname hc ho (by rw [ht])
      (by rw [hp, ht])]
    simp only [hp, ht]
    split <;> simp_all

/-- Witness of C7 (amended): with the modelled parser, `p` has the bounds `-1`, `-1` and
`p#1-2` the bounds `1`, `2`, which do not overlap, so no conflict is reported. -/
theorem validatePolicyForNodePolicy_bare_token_witness :
    validatePolicyForNodePolicy ParsePFName (pfPolicy "a" ["p"] 4) (pfPolicy "b" ["p#1-2"] 4)
      = (true, none) :=
  ((validatePolicyForNodePolicy_bare_token ParsePFName (pfPolicy "a" ["p"] 4)
    (pfPolicy "b" ["p#1-2"] 4) "p" "p#1-2" (-1) (-1) 1 2 (by decide) (by decide) (by decide)).1
    rfl rfl).2.2 (by decide)

/-- C8: two policies with different names whose first PF name token is the same name
with no range suffix are reported as conflicting, whatever NumVfs they declare and
whatever tokens follow. -/
theorem validatePolicyForNodePolicy_same_bare_name (cur pre : SriovNetworkNodePolicy)
    (tok : String) (rest1 rest2 : List String)
    (hname : cur.Name ≠ pre.Name) (hbare : '#' ∉ tok.data)
    (hcur : cur.Spec.NicSelector.PfNames = tok :: rest1)
    (hpre : pre.Spec.NicSelector.PfNames = tok :: rest2) :
    validatePolicyForNodePolicy ParsePFName cur pre = (false, some (.overlap tok pre.Name)) :=
  validatePolicyForNodePolicy_same_first ParsePFName cur pre tok rest1 rest2 hname hcur hpre
    (by rw [ParsePFName_bare tok hbare]) (by rw [ParsePFName_bare tok hbare])

/-- Witness of C8: policies `a` (8 VFs) and `b` (2 VFs) both listing `ens1f0` first. -/
theorem validatePolicyForNodePolicy_same_bare_name_witness :
    validatePolicyForNodePolicy ParsePFName (pfPolicy "a" ["ens1f0", "ens2f0#0-1"] 8)
      (pfPolicy "b" ["ens1f0"] 2) = (false, some (.overlap "ens1f0" "b")) :=
  validatePolicyForNodePolicy_same_bare_name (pfPolicy "a" ["ens1f0", "ens2f0#0-1"] 8)
    (pfPolicy "b" ["ens1f0"] 2) "ens1f0" ["ens2f0#0-1"] [] (by decide) (by decide) rfl rfl

/-! ### Per-interface checks of `validatePolicyForNodeState` -/

theorem validatePolicyForNodeStateLoop_cases (env : Env) (policy : SriovNetworkNodePolicy)
    (node : Node) (l : List InterfaceExt) (sel : Bool) :
    (validatePolicyForNodeStateLoop env policy node l sel).1 = (true, none) ∨
    ∃ e, (validatePolicyForNodeStateLoop env policy node l sel).1 = (false, some e) := by
  induction l generalizing sel with
  | nil => exact Or.inl rfl
  | cons iface rest ih =>
    unfold validatePolicyForNodeStateLoop
    split
    · split
      · exact Or.inr ⟨_, rfl⟩
      · split
        · exact Or.inr ⟨_, rfl⟩
        · split
          · exact Or.inr ⟨_, rfl⟩
          · split
            · exact Or.inr ⟨_, rfl⟩
            · exact ih true
    · exact ih sel

theorem validatePolicyForNodeStateLoop_numVfs_zero (env : Env) (policy : SriovNetworkNodePolicy)
    (node : Node) (l : List InterfaceExt) (sel : Bool)
    (hname : policy.Name ≠ env.DefaultPolicyName) (hzero : policy.Spec.NumVfs = 0)
    (hmatch : ∃ iface ∈ l, validateNicModel env policy.Spec.NicSelector iface node = true) :
    (validatePolicyForNodeStateLoop env policy node l sel).1 =
      (false, some (.numVfsZero policy.Spec.NumVfs policy.Name)) := by
  induction l generalizing sel with
  | nil => simp at hmatch
  | cons iface rest ih =>
    unfold validatePolicyForNodeStateLoop
    by_cases hm : validateNicModel env policy.Spec.NicSelector iface node = true
    · rw [if_pos hm, if_pos ⟨hname, hzero⟩]
    · rw [if_neg hm]
      apply ih
      obtain ⟨i, hi, hv⟩ := hmatch
      rcases List.mem_cons.1 hi with h | h
      · subst h; exact absurd hv hm
      · exact ⟨i, h, hv⟩

theorem validatePolicyForNodeStateLoop_true (env : Env) (policy : SriovNetworkNodePolicy)
    (node : Node) (l : List InterfaceExt) (sel : Bool)
    (h : (validatePolicyForNodeStateLoop env policy node l sel).1.1 = true) :
    ∀ iface ∈ l, validateNicModel env policy.Spec.NicSelector iface node = true →
      withinLimits policy iface := by
  induction l generalizing sel with
  | nil => simp
  | cons iface rest ih =>
    unfold validatePolicyForNodeStateLoop at h
    intro i hi hv
    split at h
    · split at h
      · simp at h
      split at h
      · simp at h
      split at h
      · simp at h
      split at h
      · simp at h
      rename_i a1 a2 a3 a4
      rcases List.mem_cons.1 hi with e | e
      · subst e
        refine ⟨fun hI => ?_, fun hM => ?_, fun hV => ?_⟩
        · by_contra hc; exact a2 ⟨by omega, hI⟩
        · by_contra hc; exact a3 ⟨by unfold MlxMaxVFs; omega, hM⟩
        · by_contra hc; exact a4 ⟨hV, hc⟩
      · exact ih true h i e hv
    · rename_i hm
      rcases List.mem_cons.1 hi with e | e
      · subst e; exact absurd hv hm
      · exact ih sel h i e hv

/-- C9: for a policy whose name is not the default policy name and whose NumVfs is 0,
and a node state with at least one interface matched by `validateNicModel`,
`validatePolicyForNodeState` returns `false` with the error that numVfs(0) is not
allowed, whatever the other interfaces and policy fields are. -/
theorem validatePolicyForNodeState_zero_vfs (env : Env) (policy : SriovNetworkNodePolicy)
    (state : SriovNetworkNodeState) (node : Node) (interfaceSelected : Bool)
    (hname : policy.Name ≠ env.DefaultPolicyName) (hzero : policy.Spec.NumVfs = 0)
    (hmatch : ∃ iface ∈ state.Interfaces,
      validateNicModel env policy.Spec.NicSelector iface node = true) :
    (validatePolicyForNodeState env policy state node interfaceSelected).1.1 = false ∧
    (validatePolicyForNodeState env policy state node interfaceSelected).1.2 =
      some (.numVfsZero 0 policy.Name) := by
  unfold validatePolicyForNodeState
  rw [validatePolicyForNodeStateLoop_numVfs_zero env policy node state.Interfaces
    interfaceSelected hname hzero hmatch, hzero]
  exact ⟨rfl, rfl⟩

/-- Witness of C9: policy `a` with NumVfs 0 selecting `ens1f0` on a state whose only
interface is the Intel interface `ens1f0`. -/
theorem validatePolicyForNodeState_zero_vfs_witness :
    (validatePolicyForNodeState exampleEnv (pfPolicy "a" ["ens1f0"] 0)
      { Name := "worker-0", Interfaces := [intelIface] } bareMetalNode false).1.1 = false ∧
    (validatePolicyForNodeState exampleEnv (pfPolicy "a" ["ens1f0"] 0)
      { Name := "worker-0", Interfaces := [intelIface] } bareMetalNode false).1.2 =
      some (.numVfsZero 0 "a") :=
  validatePolicyForNodeState_zero_vfs exampleEnv (pfPolicy "a" ["ens1f0"] 0)
    { Name := "worker-0", Interfaces := [intelIface] } bareMetalNode false (by decide) rfl
    ⟨intelIface, by decide, by decide⟩

/-- C10: if `validatePolicyForNodeState` admits, then every interface of the state
matched by `validateNicModel` is within the limits (Intel: NumVfs at most TotalVfs;
Mellanox: NumVfs at most 128; virtio: vendor Mellanox); and if some matched interface is
not within the limits, it returns `false` with a non-nil error. -/
theorem validatePolicyForNodeState_limits (env : Env) (policy : SriovNetworkNodePolicy)
    (state : SriovNetworkNodeState) (node : Node) (interfaceSelected : Bool) :
    ((validatePolicyForNodeState env policy state node interfaceSelected).1.1 = true →
      ∀ iface ∈ state.Interfaces,
        validateNicModel env policy.Spec.NicSelector iface node = true →
        withinLimits policy iface) ∧
    ((∃ iface ∈ state.Interfaces,
        validateNicModel env policy.Spec.NicSelector iface node = true ∧
        ¬ withinLimits policy iface) →
      (validatePolicyForNodeState env policy state node interfaceSelected).1.1 = false ∧
      (validatePolicyForNodeState env policy state node interfaceSelected).1.2 ≠ none) := by
  unfold validatePolicyForNodeState
  refine ⟨validatePolicyForNodeStateLoop_true env policy node state.Interfaces
    interfaceSelected, ?_⟩
  rintro ⟨iface, hi, hv, hw⟩
  rcases validatePolicyForNodeStateLoop_cases env policy node state.Interfaces
    interfaceSelected with h | ⟨e, h⟩
  · exact absurd (validatePolicyForNodeStateLoop_true env policy node state.Interfaces
      interfaceSelected (by rw [h]) iface hi hv) hw
  · rw [h]; simp

/-- Witness of C10: policy `a` asking for 4 VFs on the Intel interface with 8 VFs is
admitted and within the limits; asking for 16 VFs it is denied with an error. -/
theorem validatePolicyForNodeState_limits_witness :
    withinLimits (pfPolicy "a" ["ens1f0"] 4) intelIface ∧
    ((validatePolicyForNodeState exampleEnv (pfPolicy "a" ["ens1f0"] 16)
      { Name := "worker-0", Interfaces := [intelIface] } bareMetalNode false).1.1 = false ∧
    (validatePolicyForNodeState exampleEnv (pfPolicy "a" ["ens1f0"] 16)
      { Name := "worker-0", Interfaces := [intelIface] } bareMetalNode false).1.2 ≠ none) :=
  ⟨(validatePolicyForNodeState_limits exampleEnv (pfPolicy "a" ["ens1f0"] 4)
      { Name := "worker-0", Interfaces := [intelIface] } bareMetalNode false).1 (by decide)
      intelIface (by decide) (by decide),
    (validatePolicyForNodeState_limits exampleEnv (pfPolicy "a" ["ens1f0"] 16)
      { Name := "worker-0", Interfaces := [intelIface] } bareMetalNode false).2
      ⟨intelIface, by decide, by decide, by decide⟩⟩

/-! ### Static Rule Checker: single rules -/

theorem staticValidate_denies_of_not_rules (env : Env) (cr : SriovNetworkNodePolicy)
    (h : ¬ staticRulesHold env cr) :
    (staticValidateSriovNetworkNodePolicy env cr).1 = false ∧
    (staticValidateSriovNetworkNodePolicy env cr).2 ≠ none := by
  rcases staticValidate_cases env cr with h1 | ⟨e, h1⟩
  · exact absurd ((staticValidate_admits_iff env cr).1 h1) h
  · simp [h1]

theorem staticValidate_linkType_fold (env : Env) (cr : SriovNetworkNodePolicy)
    (lt1 lt2 : String) (h : EqualFold lt1.data LinkTypeIB.data = EqualFold lt2.data LinkTypeIB.data) :
    staticValidateSriovNetworkNodePolicy env (withLinkType cr lt1) =
      staticValidateSriovNetworkNodePolicy env (withLinkType cr lt2) := by
  simp only [staticValidateSriovNetworkNodePolicy, withLinkType, h]

/-- C12: a policy with isRdma = false whose linkType is IB, ib, Ib or iB is denied by
`staticValidateSriovNetworkNodePolicy` with a non-nil error, and for every policy the
verdict with linkType `ib` equals the verdict with linkType `IB`. -/
theorem staticValidate_ib_without_rdma (env : Env) (cr : SriovNetworkNodePolicy) :
    (cr.Spec.IsRdma = false →
      (cr.Spec.LinkType = "IB" ∨ cr.Spec.LinkType = "ib" ∨ cr.Spec.LinkType = "Ib" ∨
        cr.Spec.LinkType = "iB") →
      (staticValidateSriovNetworkNodePolicy env cr).1 = false ∧
      (staticValidateSriovNetworkNodePolicy env cr).2 ≠ none) ∧
    staticValidateSriovNetworkNodePolicy env (withLinkType cr "ib") =
      staticValidateSriovNetworkNodePolicy env (withLinkType cr "IB") := by
  refine ⟨fun hr hl => ?_, staticValidate_linkType_fold env cr "ib" "IB" (by decide)⟩
  apply staticValidate_denies_of_not_rules
  intro hrules
  apply hrules.2.2.2.2.2.1
  refine ⟨?_, hr⟩
  rcases hl with h | h | h | h <;> rw [h] <;> decide

/-- Witness of C12: the vendor-only policy with linkType `ib` and isRdma = false is
denied with the IB reason. -/
theorem staticValidate_ib_without_rdma_witness :
    (staticValidateSriovNetworkNodePolicy exampleEnv
      (vendorPolicy "8086" "netdevice" false "ib" "" "legacy")).1 = false ∧
    (staticValidateSriovNetworkNodePolicy exampleEnv
      (vendorPolicy "8086" "netdevice" false "ib" "" "legacy")).2 ≠ none :=
  (staticValidate_ib_without_rdma exampleEnv
    (vendorPolicy "8086" "netdevice" false "ib" "" "legacy")).1 rfl (Or.inr (Or.inl rfl))

/-- C13: a policy with deviceType = vfio-pci and isRdma = true is denied by
`staticValidateSriovNetworkNodePolicy` with a non-nil error, for every environment
(developer-override flag, registries) and every value of the other fields. -/
theorem staticValidate_vfio_with_rdma (env : Env) (cr : SriovNetworkNodePolicy)
    (hd : cr.Spec.DeviceType = "vfio-pci") (hr : cr.Spec.IsRdma = true) :
    (staticValidateSriovNetworkNodePolicy env cr).1 = false ∧
    (staticValidateSriovNetworkNodePolicy env cr).2 ≠ none := by
  apply staticValidate_denies_of_not_rules
  intro hrules
  exact hrules.2.2.2.2.1 ⟨hd, hr⟩

/-- Witness of C13: the vendor-only policy with deviceType `vfio-pci` and isRdma = true
is denied. -/
theorem staticValidate_vfio_with_rdma_witness :
    (staticValidateSriovNetworkNodePolicy exampleEnv
      (vendorPolicy "8086" "vfio-pci" true "eth" "" "legacy")).1 = false ∧
    (staticValidateSriovNetworkNodePolicy exampleEnv
      (vendorPolicy "8086" "vfio-pci" true "eth" "" "legacy")).2 ≠ none :=
  staticValidate_vfio_with_rdma exampleEnv (vendorPolicy "8086" "vfio-pci" true "eth" "" "legacy")
    rfl rfl

/-- C16: with the developer-override flag active (`DEV_MODE` is `TRUE`) the verdict of
`staticValidateSriovNetworkNodePolicy` is the same for any two contents of the support
registries, and a policy that meets rules 1, 2 and 4 to 8 is admitted whatever the
registries hold; with the flag not active a policy whose vendor, device or
vendor/device pair is not supported is denied with a non-nil error. -/
theorem staticValidate_dev_mode (env : Env) (cr : SriovNetworkNodePolicy) :
    (env.DEV_MODE = "TRUE" →
      (∀ (vendor vendor2 : String → Bool) (model model2 : String → String → Bool)
          (device device2 : String → Bool) (vfModel vfModel2 : String → String → Bool),
        staticValidateSriovNetworkNodePolicy (withRegistries env vendor model device vfModel) cr =
        staticValidateSriovNetworkNodePolicy
          (withRegistries env vendor2 model2 device2 vfModel2) cr) ∧
      (rule1 cr → rule2 cr → rule4 cr → rule5 cr → rule6 cr → rule7 cr → rule8 cr →
        staticValidateSriovNetworkNodePolicy env cr = (true, none))) ∧
    (env.DEV_MODE ≠ "TRUE" → ¬ registrySupports env cr →
      (staticValidateSriovNetworkNodePolicy env cr).1 = false ∧
      (staticValidateSriovNetworkNodePolicy env cr).2 ≠ none) := by
  constructor
  · intro hdev
    constructor
    · intro v v2 m m2 d d2 f f2
      simp [staticValidateSriovNetworkNodePolicy, withRegistries, hdev]
    · intro r1 r2 r4 r5 r6 r7 r8
      exact (staticValidate_admits_iff env cr).2 ⟨r1, r2, Or.inl hdev, r4, r5, r6, r7, r8⟩
  · intro hdev hreg
    apply staticValidate_denies_of_not_rules
    intro hrules
    rcases hrules.2.2.1 with h | h
    · exact hdev h
    · exact hreg h

/-- Witness of C16: the vendor-only policy for the unsupported vendor `1234` is admitted
with the flag active and denied with the flag not active. -/
theorem staticValidate_dev_mode_witness :
    staticValidateSriovNetworkNodePolicy devModeEnv
      (vendorPolicy "1234" "netdevice" false "eth" "" "legacy") = (true, none) ∧
    ((staticValidateSriovNetworkNodePolicy exampleEnv
      (vendorPolicy "1234" "netdevice" false "eth" "" "legacy")).1 = false ∧
    (staticValidateSriovNetworkNodePolicy exampleEnv
      (vendorPolicy "1234" "netdevice" false "eth" "" "legacy")).2 ≠ none) :=
  ⟨((staticValidate_dev_mode devModeEnv
      (vendorPolicy "1234" "netdevice" false "eth" "" "legacy")).1 rfl).2
      (by unfold rule1; decide) (by unfold rule2; decide)
      (by intro pf h; simp [vendorPolicy] at h)
      (by unfold rule5; decide) (by unfold rule6; decide) (by unfold rule7; decide)
      (by unfold rule8; decide),
    (staticValidate_dev_mode exampleEnv
      (vendorPolicy "1234" "netdevice" false "eth" "" "legacy")).2 (by decide)
      (by unfold registrySupports; decide)⟩

/-! ### Operator configuration -/

/-- C20: `validateSriovOperatorConfig` returns `true, nil` if and only if the name is the
default config name and the operation is not DELETE; it returns the node-draining
warning exactly when it admits and DisableDrain is set, and no warnings otherwise. -/
theorem validateSriovOperatorConfig_verdict (env : Env) (cr : SriovOperatorConfig)
    (operation : Operation) :
    (((validateSriovOperatorConfig env cr operation).admitted = true ∧
        (validateSriovOperatorConfig env cr operation).err = none) ↔
      (cr.Name = env.DefaultConfigName ∧ operation ≠ .Delete)) ∧
    ((validateSriovOperatorConfig env cr operation).warnings = [drainWarning] ↔
      ((validateSriovOperatorConfig env cr operation).admitted = true ∧
        cr.DisableDrain = true)) ∧
    (¬ ((validateSriovOperatorConfig env cr operation).admitted = true ∧
        cr.DisableDrain = true) →
      (validateSriovOperatorConfig env cr operation).warnings = []) := by
  unfold validateSriovOperatorConfig
  by_cases hn : cr.Name = env.DefaultConfigName <;> by_cases ho : operation = .Delete <;>
    by_cases hd : cr.DisableDrain = true <;> simp [hn, ho, hd]

/-- Witness of C20: an UPDATE of the default config with DisableDrain set is admitted
with the node-draining warning. -/
theorem validateSriovOperatorConfig_verdict_witness :
    (validateSriovOperatorConfig exampleEnv ⟨"default", true⟩ .Update).warnings =
      [drainWarning] :=
  (validateSriovOperatorConfig_verdict exampleEnv ⟨"default", true⟩ .Update).2.1.2
    ⟨by decide, rfl⟩

/-! ### Conflict Evaluator: the scan -/

theorem conflictInner_eq_find (parsePF : String → PFName) (curPf previousName : String)
    (prePfs : List String) :
    conflictInner parsePF curPf (parsePF curPf) previousName prePfs =
      match prePfs.find? (fun p => (parsePF curPf).ifName == (parsePF p).ifName) with
      | none => none
      | some p =>
        some (if rangesOverlap (parsePF curPf) (parsePF p) then
          (false, some (.overlap curPf previousName)) else (true, none)) := by
  induction prePfs with
  | nil => rfl
  | cons p rest ih =>
    unfold conflictInner
    by_cases hb : (parsePF curPf).ifName = (parsePF p).ifName
    · by_cases hd : (parsePF curPf).rngEnd < (parsePF p).rngSt ∨
          (parsePF curPf).rngSt > (parsePF p).rngEnd
      · simp [hb, List.find?_cons, disjointRanges, rangesOverlap, hd]
      · simp [hb, List.find?_cons, disjointRanges, rangesOverlap, hd]
    · simp [hb, List.find?_cons, ih]

theorem tokenPairs_cons (c : String) (cs prePfs : List String) :
    tokenPairs (c :: cs) prePfs = prePfs.map (fun p => (c, p)) ++ tokenPairs cs prePfs := by
  simp [tokenPairs, List.flatMap_cons]

theorem find_map_pair (parsePF : String → PFName) (c : String) (prePfs : List String) :
    (prePfs.map fun p => (c, p)).find?
        (fun cp => (parsePF cp.1).ifName == (parsePF cp.2).ifName) =
      (prePfs.find? fun p => (parsePF c).ifName == (parsePF p).ifName).map fun p => (c, p) := by
  induction prePfs with
  | nil => rfl
  | cons p rest ih =>
    by_cases hb : (parsePF c).ifName = (parsePF p).ifName
    · simp [List.find?_cons, hb]
    · simp [List.find?_cons, hb, ih]

theorem conflictOuter_eq_firstPair (parsePF : String → PFName) (previousName : String)
    (prePfs curPfs : List String) (herr : ∀ c ∈ curPfs, (parsePF c).err = false) :
    conflictOuter parsePF previousName prePfs curPfs =
      firstPairVerdict parsePF previousName curPfs prePfs := by
  induction curPfs with
  | nil => rfl
  | cons c rest ih =>
    have hc : (parsePF c).err = false := herr c (by simp)
    have ih2 := ih (fun x hx => herr x (by simp [hx]))
    unfold conflictOuter
    unfold firstPairVerdict firstCoincidingPair at ih2 ⊢
    rw [tokenPairs_cons, List.find?_append, find_map_pair, conflictInner_eq_find]
    cases hf : prePfs.find? (fun p => (parsePF c).ifName == (parsePF p).ifName) with
    | none => simp [hc, ih2]
    | some p => simp [hc]

theorem validatePolicyForNodePolicy_single_ne (parsePF : String → PFName)
    (cand other : SriovNetworkNodePolicy) (curPf prePf : String)
    (hname : cand.Name ≠ other.Name)
    (hcur : cand.Spec.NicSelector.PfNames = [curPf])
    (hpre : other.Spec.NicSelector.PfNames = [prePf])
    (herr : (parsePF curPf).err = false)
    (hbase : (parsePF curPf).ifName ≠ (parsePF prePf).ifName) :
    validatePolicyForNodePolicy parsePF cand other = (true, none) := by
  simp [validatePolicyForNodePolicy, hname, hcur, hpre, conflictOuter, herr, conflictInner,
    hbase]

theorem tokenPairs_nil_right (curPfs : List String) : tokenPairs curPfs [] = [] := by
  induction curPfs with
  | nil => rfl
  | cons c rest ih => rw [tokenPairs_cons, ih]; rfl

/-- C17: for differently named policies whose candidate tokens all parse, the result of
`validatePolicyForNodePolicy` is no conflict if no pair of the scan (candidate tokens in
order, for each the other policy's tokens in order) has equal base names, and otherwise
the overlap test of the first pair with equal base names; the candidate `["p#0-1"]`
against the other policy `["p#4-5", "p#0-1"]` gets `true, nil` although the later pair
overlaps. -/
theorem validatePolicyForNodePolicy_first_pair_decides :
    (∀ (parsePF : String → PFName) (current previous : SriovNetworkNodePolicy),
      current.Name ≠ previous.Name →
      (∀ c ∈ current.Spec.NicSelector.PfNames, (parsePF c).err = false) →
      validatePolicyForNodePolicy parsePF current previous =
        firstPairVerdict parsePF previous.Name current.Spec.NicSelector.PfNames
          previous.Spec.NicSelector.PfNames) ∧
    validatePolicyForNodePolicy ParsePFName (pfPolicy "a" ["p#0-1"] 4)
      (pfPolicy "b" ["p#4-5", "p#0-1"] 4) = (true, none) ∧
    firstCoincidingPair ParsePFName ["p#0-1"] ["p#4-5", "p#0-1"] = some ("p#0-1", "p#4-5") ∧
    rangesOverlap (ParsePFName "p#0-1") (ParsePFName "p#0-1") := by
  refine ⟨fun parsePF current previous hname herr => ?_, by decide, by decide, by decide⟩
  unfold validatePolicyForNodePolicy
  rw [if_neg hname]
  exact conflictOuter_eq_firstPair parsePF previous.Name _ _ herr

/-- Witness of C17: the candidate `["ens1#0-1", "ens2#0-3"]` against
`["ens2#2-3", "ens1#1-2"]`: the first coinciding pair is `ens1#0-1` / `ens1#1-2`, which
overlaps. -/
theorem validatePolicyForNodePolicy_first_pair_decides_witness :
    validatePolicyForNodePolicy ParsePFName (pfPolicy "a" ["ens1#0-1", "ens2#0-3"] 4)
      (pfPolicy "b" ["ens2#2-3", "ens1#1-2"] 4) =
      firstPairVerdict ParsePFName "b" ["ens1#0-1", "ens2#0-3"] ["ens2#2-3", "ens1#1-2"] :=
  validatePolicyForNodePolicy_first_pair_decides.1 ParsePFName
    (pfPolicy "a" ["ens1#0-1", "ens2#0-3"] 4) (pfPolicy "b" ["ens2#2-3", "ens1#1-2"] 4)
    (by decide) (by decide)

/-- C18 (fails on the code): the candidate with the single token `ens1f0#a-b`, whose
bounds are not integers, against a differently named policy with an empty pfNames list
gets `false` with the invalid-PF-name error. -/
theorem validatePolicyForNodePolicy_empty_other_invalid_token :
    (pfPolicy "b" [] 4).Spec.NicSelector.PfNames = [] ∧
    validatePolicyForNodePolicy ParsePFName (pfPolicy "a" ["ens1f0#a-b"] 4) (pfPolicy "b" [] 4) =
      (false, some (.invalidPfName "ens1f0#a-b")) := by
  decide

/-- C18 (amended): `validatePolicyForNodePolicy` returns `true, nil` if the candidate has
an empty pfNames list, or if the other policy has an empty pfNames list and every PF name
token of the candidate parses, whatever the other fields of the two policies are. -/
theorem validatePolicyForNodePolicy_empty_pfNames (parsePF : String → PFName)
    (current previous : SriovNetworkNodePolicy) :
    (current.Spec.NicSelector.PfNames = [] →
      validatePolicyForNodePolicy parsePF current previous = (true, none)) ∧
    (previous.Spec.NicSelector.PfNames = [] →
      (∀ c ∈ current.Spec.NicSelector.PfNames, (parsePF c).err = false) →
      validatePolicyForNodePolicy parsePF current previous = (true, none)) := by
  constructor
  · intro h
    simp [validatePolicyForNodePolicy, h, conflictOuter]
  · intro h herr
    unfold validatePolicyForNodePolicy
    split
    · rfl
    · rw [conflictOuter_eq_firstPair parsePF previous.Name _ _ herr, h]
      simp only [firstPairVerdict, firstCoincidingPair, tokenPairs_nil_right, List.find?_nil]

/-- Witness of C18 (amended): the candidate `["ens1f0#0-1"]` against a policy with no PF
names, and a candidate with no PF names against `["ens1f0"]`. -/
theorem validatePolicyForNodePolicy_empty_pfNames_witness :
    validatePolicyForNodePolicy ParsePFName (pfPolicy "a" ["ens1f0#0-1"] 4) (pfPolicy "b" [] 4) =
      (true, none) ∧
    validatePolicyForNodePolicy ParsePFName (pfPolicy "a" [] 4) (pfPolicy "b" ["ens1f0"] 4) =
      (true, none) :=
  ⟨(validatePolicyForNodePolicy_empty_pfNames ParsePFName (pfPolicy "a" ["ens1f0#0-1"] 4)
      (pfPolicy "b" [] 4)).2 rfl (by decide),
    (validatePolicyForNodePolicy_empty_pfNames ParsePFName (pfPolicy "a" [] 4)
      (pfPolicy "b" ["ens1f0"] 4)).1 rfl⟩

/-- C19: for two differently named policies with exactly one PF name token each, both
tokens parsing, `validatePolicyForNodePolicy` admits in one order if and only if it
admits in the other. -/
theorem validatePolicyForNodePolicy_symmetric (parsePF : String → PFName)
    (A B : SriovNetworkNodePolicy) (a b : String)
    (hname : A.Name ≠ B.Name)
    (hA : A.Spec.NicSelector.PfNames = [a]) (hB : B.Spec.NicSelector.PfNames = [b])
    (ha : (parsePF a).err = false) (hb : (parsePF b).err = false) :
    (validatePolicyForNodePolicy parsePF A B).1 = true ↔
      (validatePolicyForNodePolicy parsePF B A).1 = true := by
  by_cases hbase : (parsePF a).ifName = (parsePF b).ifName
  · rw [validatePolicyForNodePolicy_single parsePF A B a b hname hA hB ha hbase,
      validatePolicyForNodePolicy_single parsePF B A b a (Ne.symm hname) hB hA hb hbase.symm]
    by_cases h1 : (parsePF a).rngEnd < (parsePF b).rngSt ∨ (parsePF a).rngSt > (parsePF b).rngEnd
    · have h2 : (parsePF b).rngEnd < (parsePF a).rngSt ∨
          (parsePF b).rngSt > (parsePF a).rngEnd := by omega
      rw [if_pos h1, if_pos h2]
    · have h2 : ¬ ((parsePF b).rngEnd < (parsePF a).rngSt ∨
          (parsePF b).rngSt > (parsePF a).rngEnd) := by omega
      rw [if_neg h1, if_neg h2]
  · rw [validatePolicyForNodePolicy_single_ne parsePF A B a b hname hA hB ha hbase,
      validatePolicyForNodePolicy_single_ne parsePF B A b a (Ne.symm hname) hB hA hb
        (Ne.symm hbase)]

/-- Witness of C19: `ens1f0#0-1` and `ens1f0#1-3` overlap, and neither order admits. -/
theorem validatePolicyForNodePolicy_symmetric_witness :
    (validatePolicyForNodePolicy ParsePFName (pfPolicy "a" ["ens1f0#0-1"] 4)
        (pfPolicy "b" ["ens1f0#1-3"] 4)).1 = true ↔
    (validatePolicyForNodePolicy ParsePFName (pfPolicy "b" ["ens1f0#1-3"] 4)
        (pfPolicy "a" ["ens1f0#0-1"] 4)).1 = true :=
  validatePolicyForNodePolicy_symmetric ParsePFName (pfPolicy "a" ["ens1f0#0-1"] 4)
    (pfPolicy "b" ["ens1f0#1-3"] 4) "ens1f0#0-1" "ens1f0#1-3" (by decide) rfl rfl
    (by decide) (by decide)

/-! ### Node-selector merge -/

theorem foldl_append_singleton {α β : Type} (f : α → β) (l : List α) (acc : List β) :
    l.foldl (fun out a => out ++ [f a]) acc = acc ++ l.map f := by
  induction l generalizing acc with
  | nil => simp
  | cons a rest ih => simp [ih]

/-- C14: `nodeSelectorTermsForPolicyList` returns one selector term per policy in policy
order, each holding one match-expression per label key of the policy's NodeSelector in
key order, with that key, the operator In and the one-element value list of the key's
value; on the two inputs of `TestNodeSelectorMerge` it returns the expected terms. -/
theorem nodeSelectorTermsForPolicyList_terms :
    (∀ policies : List SriovNetworkNodePolicy,
      nodeSelectorTermsForPolicyList policies =
        policies.map fun p => ⟨p.Spec.NodeSelector.map inExpression⟩) ∧
    nodeSelectorTermsForPolicyList
        [selectorPolicy [("foo", "bar")], selectorPolicy [("bb", "cc")]] =
      [⟨[⟨"foo", .NodeSelectorOpIn, ["bar"]⟩]⟩, ⟨[⟨"bb", .NodeSelectorOpIn, ["cc"]⟩]⟩] ∧
    nodeSelectorTermsForPolicyList
        [selectorPolicy [("foo", "bar"), ("foo1", "bar1")],
         selectorPolicy [("bb", "cc"), ("bb1", "cc1"), ("bb2", "cc2")]] =
      [⟨[⟨"foo", .NodeSelectorOpIn, ["bar"]⟩, ⟨"foo1", .NodeSelectorOpIn, ["bar1"]⟩]⟩,
       ⟨[⟨"bb", .NodeSelectorOpIn, ["cc"]⟩, ⟨"bb1", .NodeSelectorOpIn, ["cc1"]⟩,
         ⟨"bb2", .NodeSelectorOpIn, ["cc2"]⟩]⟩] := by
  refine ⟨fun policies => ?_, by decide, by decide⟩
  unfold nodeSelectorTermsForPolicyList
  rw [foldl_append_singleton (fun p : SriovNetworkNodePolicy =>
    (⟨matchExpressionsForSelector p.Spec.NodeSelector⟩ : NodeSelectorTerm))]
  simp only [List.nil_append]
  apply List.map_congr_left
  intro p _
  unfold matchExpressionsForSelector
  rw [foldl_append_singleton (fun kv : String × String =>
    (⟨kv.1, .NodeSelectorOpIn, [kv.2]⟩ : NodeSelectorRequirement))]
  rfl

/-! ### Static Rule Checker: order of the rules -/

theorem checkSupported_reason (env : Env) (sel : SriovNetworkNicSelector) (e : ValidationError)
    (h : checkSupported env sel = some e) : reasonRule e = 3 := by
  unfold checkSupported at h
  split at h
  · split at h
    · simp at h; subst h; rfl
    · split at h
      · split at h
        · simp at h; subst h; rfl
        · simp at h
      · simp at h
  · split at h
    · split at h
      · simp at h; subst h; rfl
      · simp at h
    · simp at h

theorem checkPfName_reason (numVfs : Int) (pf : String) (e : ValidationError)
    (h : checkPfName numVfs pf = some e) : reasonRule e = 4 := by
  unfold checkPfName at h
  split at h
  · split at h
    · split at h
      · split at h
        · simp at h; subst h; rfl
        · split at h
          · simp at h; subst h; rfl
          · split at h
            · simp at h; subst h; rfl
            · split at h
              · simp at h; subst h; rfl
              · simp at h
      · simp at h; subst h; rfl
    · simp at h; subst h; rfl
  · simp at h

theorem checkPfNames_reason (numVfs : Int) (l : List String) (e : ValidationError)
    (h : checkPfNames numVfs l = some e) : reasonRule e = 4 := by
  induction l with
  | nil => simp [checkPfNames] at h
  | cons pf rest ih =>
    unfold checkPfNames at h
    cases hp : checkPfName numVfs pf with
    | none => rw [hp] at h; exact ih h
    | some e2 =>
      rw [hp] at h
      simp at h
      subst h
      exact checkPfName_reason numVfs pf e2 hp

theorem rule4_iff (cr : SriovNetworkNodePolicy) :
    rule4 cr ↔ checkPfNames cr.Spec.NumVfs cr.Spec.NicSelector.PfNames = none := by
  unfold rule4
  rw [checkPfNames_eq_none_iff]
  exact forall_congr' fun pf => forall_congr' fun _ => (checkPfName_eq_none_iff _ _).symm

theorem staticValidate_first_failure (env : Env) (cr : SriovNetworkNodePolicy)
    (e : ValidationError) (h : staticValidateSriovNetworkNodePolicy env cr = (false, some e)) :
    ¬ ruleHolds env cr (reasonRule e) ∧
    ∀ j, 1 ≤ j → j < reasonRule e → ruleHolds env cr j := by
  have hr1 : rule1 cr ↔ validString cr.Spec.ResourceName.data = true := by
    unfold rule1; exact (validString_iff _).symm
  have hr2 : ¬ (cr.Spec.NicSelector.Vendor = "" ∧ cr.Spec.NicSelector.DeviceID = "" ∧
      cr.Spec.NicSelector.PfNames.length = 0 ∧ cr.Spec.NicSelector.RootDevices.length = 0 ∧
      cr.Spec.NicSelector.NetFilter = "") ↔ rule2 cr := by
    unfold rule2
    simp only [List.length_eq_zero]
    tauto
  have hr3 : rule3 env cr ↔ (if ¬ (decide (env.DEV_MODE = "TRUE")) = true then
      checkSupported env cr.Spec.NicSelector else none) = none := by
    unfold rule3
    rw [← checkSupported_eq_none_iff]
    by_cases hd : env.DEV_MODE = "TRUE" <;> simp [hd]
  have hr6 : ¬ (EqualFold cr.Spec.LinkType.data LinkTypeIB.data = true ∧ ¬ cr.Spec.IsRdma = true) ↔
      rule6 cr := by
    unfold rule6; simp [LinkTypeIB]
  have hr7 : ¬ (cr.Spec.DeviceType ≠ DeviceTypeNetDevice ∧ cr.Spec.VdpaType = VdpaTypeVirtio) ↔
      rule7 cr := by
    unfold rule7; simp only [DeviceTypeNetDevice, VdpaTypeVirtio]; tauto
  unfold staticValidateSriovNetworkNodePolicy at h
  split at h
  · rename_i a1
    simp at h; subst h
    exact ⟨fun hh => a1 (hr1.1 hh), fun j h1 h2 => by simp [reasonRule] at h2; omega⟩
  split at h
  · rename_i a1 a2
    simp at h; subst h
    refine ⟨fun hh => (hr2.2 hh) a2, fun j h1 h2 => ?_⟩
    simp only [reasonRule] at h2
    interval_cases j
    exact hr1.2 (by simpa using a1)
  dsimp only at h
  split at h
  · rename_i a1 a2 _ e3 a3
    simp at h; subst h
    have hk : reasonRule e3 = 3 := by
      by_cases hd : env.DEV_MODE = "TRUE"
      · simp [hd] at a3
      · simp only [hd, decide_False, Bool.false_eq_true, not_false_eq_true, if_true] at a3
        exact checkSupported_reason env _ _ a3
    rw [hk]
    refine ⟨fun hh => ?_, fun j h1 h2 => ?_⟩
    · rw [hr3.1 hh] at a3; simp at a3
    · interval_cases j
      · exact hr1.2 (by simpa using a1)
      · exact hr2.1 a2
  split at h
  · rename_i a1 a2 _ a3 _ e4 a4
    simp at h; subst h
    rw [checkPfNames_reason _ _ _ a4]
    refine ⟨fun hh => ?_, fun j h1 h2 => ?_⟩
    · rw [(rule4_iff cr).1 hh] at a4; simp at a4
    · interval_cases j
      · exact hr1.2 (by simpa using a1)
      · exact hr2.1 a2
      · exact hr3.2 a3
  split at h
  · rename_i a1 a2 _ a3 _ a4 a5
    simp at h; subst h
    refine ⟨fun hh => hh a5, fun j h1 h2 => ?_⟩
    simp only [reasonRule] at h2
    interval_cases j
    · exact hr1.2 (by simpa using a1)
    · exact hr2.1 a2
    · exact hr3.2 a3
    · exact (rule4_iff cr).2 a4
  split at h
  · rename_i a1 a2 _ a3 _ a4 a5 a6
    simp at h; subst h
    refine ⟨fun hh => (hr6.2 hh) a6, fun j h1 h2 => ?_⟩
    simp only [reasonRule] at h2
    interval_cases j
    · exact hr1.2 (by simpa using a1)
    · exact hr2.1 a2
    · exact hr3.2 a3
    · exact (rule4_iff cr).2 a4
    · exact a5
  split at h
  · rename_i a1 a2 _ a3 _ a4 a5 a6 a7
    simp at h; subst h
    refine ⟨fun hh => (hr7.2 hh) a7, fun j h1 h2 => ?_⟩
    simp only [reasonRule] at h2
    interval_cases j
    · exact hr1.2 (by simpa using a1)
    · exact hr2.1 a2
    · exact hr3.2 a3
    · exact (rule4_iff cr).2 a4
    · exact a5
    · exact hr6.1 a6
  split at h
  · rename_i a1 a2 _ a3 _ a4 a5 a6 a7 a8
    simp at h; subst h
    refine ⟨fun hh => hh a8, fun j h1 h2 => ?_⟩
    simp only [reasonRule] at h2
    interval_cases j
    · exact hr1.2 (by simpa using a1)
    · exact hr2.1 a2
    · exact hr3.2 a3
    · exact (rule4_iff cr).2 a4
    · exact a5
    · exact hr6.1 a6
    · exact hr7.1 a7
  · simp at h

/-- C15: when a policy violates some of the static rules,
`staticValidateSriovNetworkNodePolicy` returns `false` with a reason that belongs to a
violated rule all of whose lower-numbered rules hold, that is the lowest-numbered
violated rule; an invalid resource name with an empty selector gets the resource-name
reason, and a virtio policy with deviceType vfio-pci and eswitchMode legacy gets the
deviceType reason. -/
theorem staticValidate_reason_of_lowest_rule :
    (∀ (env : Env) (cr : SriovNetworkNodePolicy), ¬ staticRulesHold env cr →
      ∃ e, staticValidateSriovNetworkNodePolicy env cr = (false, some e) ∧
        ¬ ruleHolds env cr (reasonRule e) ∧
        ∀ j, 1 ≤ j → j < reasonRule e → ruleHolds env cr j) ∧
    (¬ rule1 defaultPolicyBadName ∧ ¬ rule2 defaultPolicyBadName ∧
      staticValidateSriovNetworkNodePolicy exampleEnv defaultPolicyBadName =
        (false, some (.resourceName "bad-name"))) ∧
    (¬ rule7 (vendorPolicy "15b3" "vfio-pci" false "eth" "virtio" "legacy") ∧
      ¬ rule8 (vendorPolicy "15b3" "vfio-pci" false "eth" "virtio" "legacy") ∧
      staticValidateSriovNetworkNodePolicy exampleEnv
          (vendorPolicy "15b3" "vfio-pci" false "eth" "virtio" "legacy") =
        (false, some (.vdpaDeviceType "vfio-pci"))) := by
  refine ⟨fun env cr hn => ?_, ⟨by unfold rule1; decide, by unfold rule2; decide, by decide⟩,
    ⟨by unfold rule7; decide, by unfold rule8; decide, by decide⟩⟩
  rcases staticValidate_cases env cr with h | ⟨e, h⟩
  · exact absurd ((staticValidate_admits_iff env cr).1 h) hn
  · exact ⟨e, h, staticValidate_first_failure env cr e h⟩

/-- Witness of C15: the vendor-only policy for the unsupported vendor `1234` with
deviceType vfio-pci and isRdma = true violates rules 3 and 5 and gets a reason of
rule 3. -/
theorem staticValidate_reason_of_lowest_rule_witness :
    ∃ e, staticValidateSriovNetworkNodePolicy exampleEnv
        (vendorPolicy "1234" "vfio-pci" true "eth" "" "legacy") = (false, some e) ∧
      ¬ ruleHolds exampleEnv (vendorPolicy "1234" "vfio-pci" true "eth" "" "legacy")
        (reasonRule e) ∧
      ∀ j, 1 ≤ j → j < reasonRule e →
        ruleHolds exampleEnv (vendorPolicy "1234" "vfio-pci" true "eth" "" "legacy") j :=
  staticValidate_reason_of_lowest_rule.1 exampleEnv
    (vendorPolicy "1234" "vfio-pci" true "eth" "" "legacy")
    (fun h => absurd h.2.2.2.2.1 (by unfold rule5; decide))

/-! ### Admission Orchestrator: the dynamic check -/

theorem stateLoop_verdict_sel (env : Env) (policy : SriovNetworkNodePolicy) (node : Node)
    (l : List InterfaceExt) (sel sel2 : Bool) :
    (validatePolicyForNodeStateLoop env policy node l sel).1 =
      (validatePolicyForNodeStateLoop env policy node l sel2).1 := by
  induction l generalizing sel sel2 with
  | nil => rfl
  | cons iface rest ih =>
    unfold validatePolicyForNodeStateLoop
    split
    · split
      · rfl
      · split
        · rfl
        · split
          · rfl
          · split
            · rfl
            · rfl
    · exact ih sel sel2

theorem stateLoop_flag (env : Env) (policy : SriovNetworkNodePolicy) (node : Node)
    (l : List InterfaceExt) (sel : Bool) :
    (validatePolicyForNodeStateLoop env policy node l sel).2 = true ↔
      (sel = true ∨ ∃ iface ∈ l, validateNicModel env policy.Spec.NicSelector iface node = true) := by
  induction l generalizing sel with
  | nil => simp [validatePolicyForNodeStateLoop]
  | cons iface rest ih =>
    unfold validatePolicyForNodeStateLoop
    by_cases hm : validateNicModel env policy.Spec.NicSelector iface node = true
    · rw [if_pos hm]
      have hr : (sel = true ∨ ∃ i ∈ iface :: rest,
          validateNicModel env policy.Spec.NicSelector i node = true) :=
        Or.inr ⟨iface, by simp, hm⟩
      split
      · exact ⟨fun _ => hr, fun _ => rfl⟩
      · split
        · exact ⟨fun _ => hr, fun _ => rfl⟩
        · split
          · exact ⟨fun _ => hr, fun _ => rfl⟩
          · split
            · exact ⟨fun _ => hr, fun _ => rfl⟩
            · exact ⟨fun _ => hr, fun _ => (ih true).2 (Or.inl rfl)⟩
    · rw [if_neg hm, ih sel]
      simp [hm]

theorem nodeStatesLoop_spec (env : Env) (cr : SriovNetworkNodePolicy) (node : Node)
    (nsList : List SriovNetworkNodeState) (sel : Bool) :
    ((nodeStatesLoop env cr node nsList sel).1 = none ↔
      ∀ ns ∈ nsList, ns.Name = node.Name →
        (validatePolicyForNodeState env cr ns node false).1 = (true, none)) ∧
    (∀ v, (nodeStatesLoop env cr node nsList sel).1 = some v → v.1 = false) ∧
    ((nodeStatesLoop env cr node nsList sel).2 = true →
      (sel = true ∨ ∃ ns ∈ nsList, ns.Name = node.Name ∧
        ∃ iface ∈ ns.Interfaces, validateNicModel env cr.Spec.NicSelector iface node = true)) ∧
    ((nodeStatesLoop env cr node nsList sel).1 = none →
      (sel = true ∨ ∃ ns ∈ nsList, ns.Name = node.Name ∧
        ∃ iface ∈ ns.Interfaces, validateNicModel env cr.Spec.NicSelector iface node = true) →
      (nodeStatesLoop env cr node nsList sel).2 = true) := by
  induction nsList generalizing sel with
  | nil => simp [nodeStatesLoop]
  | cons ns rest ih =>
    unfold nodeStatesLoop
    by_cases hn : ns.Name = node.Name
    · rw [if_pos hn]
      have hv : (validatePolicyForNodeState env cr ns node sel).1 =
          (validatePolicyForNodeState env cr ns node false).1 :=
        stateLoop_verdict_sel env cr node ns.Interfaces sel false
      have hf := stateLoop_flag env cr node ns.Interfaces sel
      rcases validatePolicyForNodeStateLoop_cases env cr node ns.Interfaces sel with hc | ⟨e, hc⟩
      · have hc2 : (validatePolicyForNodeState env cr ns node sel).1 = (true, none) := hc
        have hc3 : (validatePolicyForNodeState env cr ns node false).1 = (true, none) := by
          rw [← hv]; exact hc2
        rw [if_neg (by rw [hc2]; simp)]
        obtain ⟨i1, i2, i3, i4⟩ := ih (validatePolicyForNodeState env cr ns node sel).2
        refine ⟨?_, i2, ?_, ?_⟩
        · rw [i1]
          constructor
          · intro h x hx hxn
            rcases List.mem_cons.1 hx with e | e
            · subst e; exact hc3
            · exact h x e hxn
          · intro h x hx hxn
            exact h x (List.mem_cons_of_mem _ hx) hxn
        · intro h
          rcases i3 h with h1 | ⟨x, hx, hxn, hxi⟩
          · rcases hf.1 h1 with h2 | h2
            · exact Or.inl h2
            · exact Or.inr ⟨ns, by simp, hn, h2⟩
          · exact Or.inr ⟨x, List.mem_cons_of_mem _ hx, hxn, hxi⟩
        · intro h0 h
          apply i4 h0
          rcases h with h1 | ⟨x, hx, hxn, hxi⟩
          · exact Or.inl (hf.2 (Or.inl h1))
          · rcases List.mem_cons.1 hx with e | e
            · subst e; exact Or.inl (hf.2 (Or.inr hxi))
            · exact Or.inr ⟨x, e, hxn, hxi⟩
      · have hc2 : (validatePolicyForNodeState env cr ns node sel).1 = (false, some e) := hc
        have hc3 : (validatePolicyForNodeState env cr ns node false).1 = (false, some e) := by
          rw [← hv]; exact hc2
        rw [if_pos (by rw [hc2]; simp)]
        refine ⟨?_, ?_, ?_, ?_⟩
        · constructor
          · intro h; simp at h
          · intro h
            have := h ns (by simp) hn
            rw [hc3] at this
            simp at this
        · intro v hv2
          simp at hv2
          rw [← hv2]
        · intro h
          rcases hf.1 h with h2 | h2
          · exact Or.inl h2
          · exact Or.inr ⟨ns, by simp, hn, h2⟩
        · intro h0
          simp at h0
    · rw [if_neg hn]
      obtain ⟨i1, i2, i3, i4⟩ := ih sel
      refine ⟨?_, i2, ?_, ?_⟩
      · rw [i1]
        constructor
        · intro h x hx hxn
          rcases List.mem_cons.1 hx with e | e
          · subst e; exact absurd hxn hn
          · exact h x e hxn
        · intro h x hx hxn
          exact h x (List.mem_cons_of_mem _ hx) hxn
      · intro h
        rcases i3 h with h1 | ⟨x, hx, hxn, hxi⟩
        · exact Or.inl h1
        · exact Or.inr ⟨x, List.mem_cons_of_mem _ hx, hxn, hxi⟩
      · intro h0 h
        apply i4 h0
        rcases h with h1 | ⟨x, hx, hxn, hxi⟩
        · exact Or.inl h1
        · rcases List.mem_cons.1 hx with e | e
          · subst e; exact absurd hxn hn
          · exact Or.inr ⟨x, e, hxn, hxi⟩

theorem conflictInner_cases (parsePF : String → PFName) (curPf : String) (cur : PFName)
    (previousName : String) (prePfs : List String) (v : Verdict)
    (h : conflictInner parsePF curPf cur previousName prePfs = some v) :
    v = (true, none) ∨ ∃ e, v = (false, some e) := by
  induction prePfs with
  | nil => simp [conflictInner] at h
  | cons p rest ih =>
    unfold conflictInner at h
    split at h
    · split at h
      · simp at h; exact Or.inl h.symm
      · simp at h; exact Or.inr ⟨_, h.symm⟩
    · exact ih h

theorem validatePolicyForNodePolicy_cases (parsePF : String → PFName)
    (current previous : SriovNetworkNodePolicy) :
    validatePolicyForNodePolicy parsePF current previous = (true, none) ∨
    ∃ e, validatePolicyForNodePolicy parsePF current previous = (false, some e) := by
  unfold validatePolicyForNodePolicy
  split
  · exact Or.inl rfl
  · generalize current.Spec.NicSelector.PfNames = curPfs
    induction curPfs with
    | nil => exact Or.inl rfl
    | cons c rest ih =>
      unfold conflictOuter
      split
      · exact Or.inr ⟨_, rfl⟩
      · split
        · rename_i v hv
          exact conflictInner_cases _ _ _ _ _ v hv
        · exact ih

theorem nodePoliciesLoop_spec (parsePF : String → PFName) (cr : SriovNetworkNodePolicy)
    (node : Node) (npList : List SriovNetworkNodePolicy) :
    (nodePoliciesLoop parsePF cr node npList = none ↔
      ∀ np ∈ npList, np.Name ≠ cr.Name → Selected np node = true →
        validatePolicyForNodePolicy parsePF cr np = (true, none)) ∧
    (∀ v, nodePoliciesLoop parsePF cr node npList = some v → v.1 = false) := by
  induction npList with
  | nil => simp [nodePoliciesLoop]
  | cons np rest ih =>
    unfold nodePoliciesLoop
    by_cases hc : np.Name ≠ cr.Name ∧ Selected np node = true
    · rw [if_pos hc]
      rcases validatePolicyForNodePolicy_cases parsePF cr np with hv | ⟨e, hv⟩
      · rw [if_neg (by rw [hv]; simp)]
        refine ⟨?_, ih.2⟩
        rw [ih.1]
        constructor
        · intro h x hx h1 h2
          rcases List.mem_cons.1 hx with e | e
          · subst e; exact hv
          · exact h x e h1 h2
        · intro h x hx h1 h2
          exact h x (List.mem_cons_of_mem _ hx) h1 h2
      · rw [if_pos (by rw [hv]; simp)]
        refine ⟨⟨fun h => by simp at h, fun h => ?_⟩, fun v h => by simp at h; rw [← h]⟩
        have := h np (by simp) hc.1 hc.2
        rw [hv] at this
        simp at this
    · rw [if_neg hc]
      refine ⟨?_, ih.2⟩
      rw [ih.1]
      constructor
      · intro h x hx h1 h2
        rcases List.mem_cons.1 hx with e | e
        · subst e; exact absurd ⟨h1, h2⟩ hc
        · exact h x e h1 h2
      · intro h x hx h1 h2
        exact h x (List.mem_cons_of_mem _ hx) h1 h2

theorem nodesLoop_spec (env : Env) (parsePF : String → PFName) (cr : SriovNetworkNodePolicy)
    (nsList : List SriovNetworkNodeState) (npList : List SriovNetworkNodePolicy)
    (l : List Node) (g : Globals) :
    (∀ v, (nodesLoop env parsePF cr nsList npList l g).1 = some v → v.1 = false) ∧
    ((nodesLoop env parsePF cr nsList npList l g).1 = none ↔
      noCheckRejects env parsePF cr l nsList npList) ∧
    ((nodesLoop env parsePF cr nsList npList l g).2.nodesSelected = true →
      (g.nodesSelected = true ∨ someNodeSelected cr l)) ∧
    ((nodesLoop env parsePF cr nsList npList l g).2.interfaceSelected = true →
      (g.interfaceSelected = true ∨ someInterfaceMatched env cr l nsList)) ∧
    ((nodesLoop env parsePF cr nsList npList l g).1 = none →
      (g.nodesSelected = true ∨ someNodeSelected cr l) →
      (nodesLoop env parsePF cr nsList npList l g).2.nodesSelected = true) ∧
    ((nodesLoop env parsePF cr nsList npList l g).1 = none →
      (g.interfaceSelected = true ∨ someInterfaceMatched env cr l nsList) →
      (nodesLoop env parsePF cr nsList npList l g).2.interfaceSelected = true) := by
  induction l generalizing g with
  | nil =>
    simp [nodesLoop, noCheckRejects, someNodeSelected, someInterfaceMatched]
  | cons node rest ih =>
    unfold nodesLoop
    by_cases hs : Selected cr node = true
    · rw [if_pos hs]
      obtain ⟨s1, s2, s3, s4⟩ := nodeStatesLoop_spec env cr node nsList g.interfaceSelected
      obtain ⟨p1, p2⟩ := nodePoliciesLoop_spec parsePF cr node npList
      have hnode : someNodeSelected cr (node :: rest) := ⟨node, by simp, hs⟩
      cases hst : nodeStatesLoop env cr node nsList g.interfaceSelected with
      | mk o sel =>
        rw [hst] at s1 s2 s3 s4
        cases o with
        | some v =>
          refine ⟨fun v2 h => ?_, ⟨fun h => by simp at h, fun h => ?_⟩, fun _ => Or.inr hnode,
            fun h => ?_, fun h => by simp at h, fun h => by simp at h⟩
          · simp at h; subst h; exact s2 v rfl
          · have := s1.2 (h node (by simp) hs).1
            simp at this
          · rcases s3 h with h1 | h1
            · exact Or.inl h1
            · exact Or.inr ⟨node, by simp, hs, h1⟩
        | none =>
          have hsel : sel = true ↔ (g.interfaceSelected = true ∨ ∃ ns ∈ nsList,
              ns.Name = node.Name ∧ ∃ iface ∈ ns.Interfaces,
                validateNicModel env cr.Spec.NicSelector iface node = true) :=
            ⟨s3, s4 rfl⟩
          cases hpl : nodePoliciesLoop parsePF cr node npList with
          | some v =>
            rw [hpl] at p1 p2
            refine ⟨fun v2 h => ?_, ⟨fun h => by simp at h, fun h => ?_⟩,
              fun _ => Or.inr hnode, fun h => ?_, fun h => by simp at h, fun h => by simp at h⟩
            · simp at h; subst h; exact p2 v rfl
            · have := p1.2 (h node (by simp) hs).2
              simp at this
            · rcases s3 h with h1 | h1
              · exact Or.inl h1
              · exact Or.inr ⟨node, by simp, hs, h1⟩
          | none =>
            rw [hpl] at p1
            obtain ⟨i1, i2, i3, i4, i5, i6⟩ := ih ⟨true, sel⟩
            refine ⟨i1, ?_, fun _ => Or.inr hnode, ?_, fun h _ => i5 h (Or.inl rfl), ?_⟩
            · rw [i2]
              constructor
              · intro h x hx hxs
                rcases List.mem_cons.1 hx with e | e
                · subst e; exact ⟨s1.1 rfl, p1.1 rfl⟩
                · exact h x e hxs
              · intro h x hx hxs
                exact h x (List.mem_cons_of_mem _ hx) hxs
            · intro h
              rcases i4 h with h1 | ⟨x, hx, hxs, hxm⟩
              · rcases hsel.1 h1 with h2 | h2
                · exact Or.inl h2
                · exact Or.inr ⟨node, by simp, hs, h2⟩
              · exact Or.inr ⟨x, List.mem_cons_of_mem _ hx, hxs, hxm⟩
            · intro h0 h
              apply i6 h0
              rcases h with h1 | ⟨x, hx, hxs, hxm⟩
              · exact Or.inl (hsel.2 (Or.inl h1))
              · rcases List.mem_cons.1 hx with e | e
                · subst e; exact Or.inl (hsel.2 (Or.inr hxm))
                · exact Or.inr ⟨x, e, hxs, hxm⟩
    · rw [if_neg hs]
      obtain ⟨i1, i2, i3, i4, i5, i6⟩ := ih g
      refine ⟨i1, ?_, ?_, ?_, ?_, ?_⟩
      · rw [i2]
        constructor
        · intro h x hx hxs
          rcases List.mem_cons.1 hx with e | e
          · subst e; exact absurd hxs hs
          · exact h x e hxs
        · intro h x hx hxs
          exact h x (List.mem_cons_of_mem _ hx) hxs
      · intro h
        rcases i3 h with h1 | ⟨x, hx, hxs⟩
        · exact Or.inl h1
        · exact Or.inr ⟨x, List.mem_cons_of_mem _ hx, hxs⟩
      · intro h
        rcases i4 h with h1 | ⟨x, hx, hxs, hxm⟩
        · exact Or.inl h1
        · exact Or.inr ⟨x, List.mem_cons_of_mem _ hx, hxs, hxm⟩
      · intro h0 h
        apply i5 h0
        rcases h with h1 | ⟨x, hx, hxs⟩
        · exact Or.inl h1
        · rcases List.mem_cons.1 hx with e | e
          · subst e; exact absurd hxs hs
          · exact Or.inr ⟨x, e, hxs⟩
      · intro h0 h
        apply i6 h0
        rcases h with h1 | ⟨x, hx, hxs, hxm⟩
        · exact Or.inl h1
        · rcases List.mem_cons.1 hx with e | e
          · subst e; exact absurd hxs hs
          · exact Or.inr ⟨x, e, hxs, hxm⟩

/-- C11: with the three lists retrieved, `dynamicValidateSriovNetworkNodePolicy` admits
only if some listed machine is selected by the NodeSelector and some interface of a node
state of a selected machine is matched by `validateNicModel`; and when no per-machine
check rejects, it returns the no-matched-node error if no machine is selected, otherwise
the no-supported-NIC error if no interface is matched, and otherwise `true, nil`. -/
theorem dynamicValidate_outcome (env : Env) (parsePF : String → PFName)
    (cr : SriovNetworkNodePolicy) (nodeList : List Node)
    (nsList : List SriovNetworkNodeState) (npList : List SriovNetworkNodePolicy) :
    ((dynamicValidateSriovNetworkNodePolicy env parsePF
        ⟨.ok nodeList, .ok nsList, .ok npList⟩ cr).1.1 = true →
      someNodeSelected cr nodeList ∧ someInterfaceMatched env cr nodeList nsList) ∧
    (noCheckRejects env parsePF cr nodeList nsList npList →
      (¬ someNodeSelected cr nodeList →
        (dynamicValidateSriovNetworkNodePolicy env parsePF
          ⟨.ok nodeList, .ok nsList, .ok npList⟩ cr).1 = (false, some (.noNode cr.Name))) ∧
      (someNodeSelected cr nodeList → ¬ someInterfaceMatched env cr nodeList nsList →
        (dynamicValidateSriovNetworkNodePolicy env parsePF
          ⟨.ok nodeList, .ok nsList, .ok npList⟩ cr).1 = (false, some (.noNic cr.Name))) ∧
      (someNodeSelected cr nodeList → someInterfaceMatched env cr nodeList nsList →
        (dynamicValidateSriovNetworkNodePolicy env parsePF
          ⟨.ok nodeList, .ok nsList, .ok npList⟩ cr).1 = (true, none))) := by
  obtain ⟨n1, n2, n3, n4, n5, n6⟩ :=
    nodesLoop_spec env parsePF cr nsList npList nodeList ⟨false, false⟩
  unfold dynamicValidateSriovNetworkNodePolicy
  dsimp only
  cases hl : nodesLoop env parsePF cr nsList npList nodeList ⟨false, false⟩ with
  | mk o g =>
    rw [hl] at n1 n2 n3 n4 n5 n6
    cases o with
    | some v =>
      dsimp only
      constructor
      · intro h
        rw [n1 v rfl] at h
        simp at h
      · intro h
        have := n2.2 h
        simp at this
    | none =>
      dsimp only
      have hN : g.nodesSelected = true ↔ someNodeSelected cr nodeList :=
        ⟨fun h => (n3 h).resolve_left (by simp), fun h => n5 rfl (Or.inr h)⟩
      have hI : g.interfaceSelected = true ↔ someInterfaceMatched env cr nodeList nsList :=
        ⟨fun h => (n4 h).resolve_left (by simp), fun h => n6 rfl (Or.inr h)⟩
      constructor
      · intro h
        split at h
        · simp at h
        · split at h
          · simp at h
          · rename_i a b
            exact ⟨hN.1 (by simpa using a), hI.1 (by simpa using b)⟩
      · intro _
        refine ⟨fun h => ?_, fun h1 h2 => ?_, fun h1 h2 => ?_⟩
        · rw [if_pos (fun hc => h (hN.1 hc))]
        · rw [if_neg (fun hc => hc (hN.2 h1)), if_pos (fun hc => h2 (hI.1 hc))]
        · rw [if_neg (fun hc => hc (hN.2 h1)), if_neg (fun hc => hc (hI.2 h2))]

/-- Witness of C11: policy `a` selecting `ens1f0` with 4 VFs on the cluster with one
machine carrying the Intel interface `ens1f0` is accepted. -/
theorem dynamicValidate_outcome_witness :
    (dynamicValidateSriovNetworkNodePolicy exampleEnv ParsePFName
      ⟨.ok [bareMetalNode], .ok [{ Name := "worker-0", Interfaces := [intelIface] }], .ok []⟩
      (pfPolicy "a" ["ens1f0"] 4)).1 = (true, none) :=
  ((dynamicValidate_outcome exampleEnv ParsePFName (pfPolicy "a" ["ens1f0"] 4) [bareMetalNode]
    [{ Name := "worker-0", Interfaces := [intelIface] }] []).2 (by decide)).2.2
    (by decide) (by decide)

end Webhook
